import Mathlib

/-!
# Raphy daemon — verification of the specification against the source

Shallow embedding of the raphy daemon's core subsystems:

* the protocol data model and the bincode-style binary codec with its
  length-prefixed framing (`src/protocol`, `src/server/src/network.rs`,
  `src/client/src/lib.rs`);
* the per-connection reader loop (`read_subsystem_once`);
* the network actor's broadcaster and dispatch handlers
  (`MessageBroadcaster`, `handle_c2s_perform_operation`,
  `handle_c2s_shutdown`);
* the supervisor actor (`ServerTask::handle_n2s`) and the child-process
  actor (`ChildTask`);
* configuration resolution (`Config::resolve` / `Config::from_resolved`);
* the managed client's shutdown path
  (`managed::client_writer_task_handle_message`).

Rust strings, paths and byte vectors are modelled as lists of natural
numbers (their byte sequences); machine integers are naturals with
explicit `% 2 ^ w` where the code truncates.  Effects (environment
variables, shell tokenisation, process spawning, the filesystem) are
passed in explicitly as parameters, and each actor handler becomes a
pure function from its state and inbound message to its new state, its
replies and the messages it emits.
-/

namespace Raphy

/-- A Rust `String`, `PathBuf` or `Vec<u8>`, modelled as its byte
sequence. -/
abbrev RString := List Nat

/-! ## Protocol data model (`src/protocol/src/config.rs`, spec §3)

The `Config` type and its variants are translated from
`src/protocol/src/config.rs`, which is the version of the protocol crate
the server compiles against (the copy of `lib.rs` under `src/protocol`
is stale: it lacks the `Ping`/`GetConfig`/`GetServerState` requests, the
`ServerState` type and several reply variants that
`src/server/src/network.rs` matches on). -/

/-- `JavaPath` from `src/protocol/src/config.rs`. -/
inductive JavaPath where
  | autoDetect
  | custom (path : RString)
deriving DecidableEq

/-- `JavaPathKind` from `src/protocol/src/config.rs`. -/
inductive JavaPathKind where
  | autoDetect
  | custom
deriving DecidableEq

/-- `Arguments` from `src/protocol/src/config.rs`. -/
inductive Arguments where
  | parsed (s : RString)
  | manual (args : List RString)
deriving DecidableEq

/-- `User` from `src/protocol/src/config.rs`. -/
inductive User where
  | current
  | specific (user : RString)
deriving DecidableEq

/-- `UserKind` from `src/protocol/src/config.rs`. -/
inductive UserKind where
  | current
  | specific
deriving DecidableEq

/-- `Config` from `src/protocol/src/config.rs` (field order as in the
Rust struct, which fixes the bincode field encoding order). -/
structure Config where
  javaPath : JavaPath
  serverJarPath : RString
  javaArguments : Arguments
  serverArguments : Arguments
  user : User
deriving DecidableEq

/-- `Operation` from `src/protocol/src/lib.rs`. -/
inductive Operation where
  | start
  | stop
  | restart
deriving DecidableEq

/-- `ExitStatus` from `src/protocol/src/lib.rs`. -/
inductive ExitStatus where
  | success
  | failure
deriving DecidableEq

/-- Modelled from the spec: `ServerState` — "Variant {Started,
Stopped(Option<ExitStatus>)}" (spec §3).  The type is used throughout
`src/server` (`raphy_protocol::ServerState`) but its definition is
missing from the stale `src/protocol/src/lib.rs`. -/
inductive ServerState where
  | started
  | stopped (status : Option ExitStatus)
deriving DecidableEq

/-- `TaskId` from `src/protocol/src/lib.rs`: a newtype over `Id(u64)`;
the carried 64-bit value is modelled as a natural. -/
structure TaskId where
  val : Nat
deriving DecidableEq

/-- `OperationId` from `src/protocol/src/lib.rs`: a newtype over
`Id(u64)`. -/
structure OperationId where
  val : Nat
deriving DecidableEq

/-- The four formatted strings of one `SerdeError` node
(`src/protocol/src/lib.rs`). -/
structure ErrorFrame where
  display : RString
  altDisplay : RString
  debug : RString
  altDebug : RString
deriving DecidableEq

/-- `SerdeError` from `src/protocol/src/lib.rs`: a node of four strings
plus `source: Option<Box<Self>>`.  The `Option` chain is represented by
the `leaf` (source `None`) / `cons` (source `Some`) split, which is the
same data. -/
inductive SerdeError where
  | leaf (frame : ErrorFrame)
  | cons (frame : ErrorFrame) (source : SerdeError)
deriving DecidableEq

/-- Modelled from the spec: the client→server message enum (spec §3:
"`Ping`, `GetConfig`, `GetServerState`, `UpdateConfig(config)`,
`PerformOperation(op)`, `Input(bytes)`, `Shutdown`"), with the payload
shapes `src/server/src/network.rs` destructures
(`UpdateConfig(task_id, config)`, `PerformOperation(task_id,
operation)`).  The enum in the stale `src/protocol/src/lib.rs` lacks the
first three variants. -/
inductive ClientToServerMessage where
  | ping (task : TaskId)
  | getConfig (task : TaskId)
  | getServerState (task : TaskId)
  | updateConfig (task : TaskId) (config : Config)
  | performOperation (task : TaskId) (operation : Operation)
  | input (bytes : RString)
  | shutdown
deriving DecidableEq

/-- Modelled from the spec: the server→client message enum (spec §3:
"`Pong(task)`, `CurrentConfig(config, task)`, `CurrentServerState(state,
task)`, `ConfigUpdated(config, Option<task>)`, `OperationRequested(op,
opId)`, `OperationPerformed(op, opId, Option<task>)`,
`OperationFailed(op, opId, error, Option<task>)`,
`ServerStateUpdated(state)`, `Stdout(bytes)`, `Stderr(bytes)`,
`FatalError(error)`, `Error(error, Option<task>)`, `ShuttingDown`"),
with the payload shapes `src/server/src/network.rs` constructs
(`CurrentConfig` carries the supervisor's `Option<Config>`). -/
inductive ServerToClientMessage where
  | pong (task : TaskId)
  | currentConfig (config : Option Config) (task : TaskId)
  | currentServerState (state : ServerState) (task : TaskId)
  | configUpdated (config : Config) (task : Option TaskId)
  | operationRequested (operation : Operation) (opId : OperationId)
  | operationPerformed (operation : Operation) (opId : OperationId) (task : Option TaskId)
  | operationFailed (operation : Operation) (opId : OperationId) (error : SerdeError)
      (task : Option TaskId)
  | serverStateUpdated (state : ServerState)
  | stdout (bytes : RString)
  | stderr (bytes : RString)
  | fatalError (error : SerdeError)
  | error (error : SerdeError) (task : Option TaskId)
  | shuttingDown
deriving DecidableEq

/-! ## Binary codec

bincode with `bincode::config::standard()`: little-endian, variable-length
integer encoding.  A `u64` below 251 is one byte; otherwise a marker byte
251/252/253 followed by a 2/4/8-byte little-endian payload.  Enum
discriminants are `u32` values in the same varint form; `Vec`/`String`
lengths are `u64` varints; `Option` is one byte `0`/`1` followed by the
payload. -/

/-- `width` little-endian bytes of `n` (the low `8 * width` bits). -/
def leBytes : Nat → Nat → List Nat
  | 0, _ => []
  | w + 1, n => n % 256 :: leBytes w (n / 256)

/-- Read `width` bytes as a little-endian natural, returning the value
and the unconsumed tail. -/
def leRead : Nat → List Nat → Option (Nat × List Nat)
  | 0, bs => some (0, bs)
  | _ + 1, [] => none
  | w + 1, b :: bs => (leRead w bs).map (fun p => (b + 256 * p.1, p.2))

/-- bincode standard varint encoding of an unsigned integer. -/
def varintEncode (n : Nat) : List Nat :=
  if n < 251 then [n]
  else if n < 2 ^ 16 then 251 :: leBytes 2 n
  else if n < 2 ^ 32 then 252 :: leBytes 4 n
  else 253 :: leBytes 8 n

/-- bincode standard varint decoding (markers 254/255 are the `u128`
and reserved forms, rejected for 64-bit values). -/
def varintDecode : List Nat → Option (Nat × List Nat)
  | [] => none
  | b :: bs =>
    if b < 251 then some (b, bs)
    else if b = 251 then leRead 2 bs
    else if b = 252 then leRead 4 bs
    else if b = 253 then leRead 8 bs
    else none

/-- Read exactly `n` raw bytes, returning them and the unconsumed
tail (`read_exact` over a slice). -/
def readN : Nat → List Nat → Option (List Nat × List Nat)
  | 0, bs => some ([], bs)
  | _ + 1, [] => none
  | n + 1, b :: bs => (readN n bs).map (fun p => (b :: p.1, p.2))

/-- Encoding of a `Vec<u8>`, `String` or path: `u64` varint length
followed by the raw bytes. -/
def encodeBytes (s : RString) : List Nat :=
  varintEncode s.length ++ s

/-- Decoding of a `Vec<u8>`, `String` or path. -/
def decodeBytes (bs : List Nat) : Option (RString × List Nat) :=
  (varintDecode bs).bind fun p => (readN p.1 p.2).map id

/-- `Option<T>` encoding: one byte `0` (`None`) or `1` (`Some`) then the
payload. -/
def encodeOption (f : α → List Nat) : Option α → List Nat
  | none => [0]
  | some x => 1 :: f x

/-- `Option<T>` decoding. -/
def decodeOption (f : List Nat → Option (α × List Nat)) :
    List Nat → Option (Option α × List Nat)
  | [] => none
  | 0 :: bs => some (none, bs)
  | 1 :: bs => (f bs).map (fun p => (some p.1, p.2))
  | _ => none

/-- `TaskId` encoding: the inner `u64`. -/
def TaskId.encode (t : TaskId) : List Nat := varintEncode t.val

/-- `TaskId` decoding. -/
def decodeTaskId (bs : List Nat) : Option (TaskId × List Nat) :=
  (varintDecode bs).map (fun p => (⟨p.1⟩, p.2))

/-- `OperationId` encoding: the inner `u64`. -/
def OperationId.encode (o : OperationId) : List Nat := varintEncode o.val

/-- `OperationId` decoding. -/
def decodeOperationId (bs : List Nat) : Option (OperationId × List Nat) :=
  (varintDecode bs).map (fun p => (⟨p.1⟩, p.2))

/-- `Operation` encoding: the `u32` variant index. -/
def Operation.encode : Operation → List Nat
  | .start => varintEncode 0
  | .stop => varintEncode 1
  | .restart => varintEncode 2

/-- `Operation` decoding. -/
def decodeOperation (bs : List Nat) : Option (Operation × List Nat) :=
  (varintDecode bs).bind fun p =>
    match p.1 with
    | 0 => some (.start, p.2)
    | 1 => some (.stop, p.2)
    | 2 => some (.restart, p.2)
    | _ => none

/-- `ExitStatus` encoding. -/
def ExitStatus.encode : ExitStatus → List Nat
  | .success => varintEncode 0
  | .failure => varintEncode 1

/-- `ExitStatus` decoding. -/
def decodeExitStatus (bs : List Nat) : Option (ExitStatus × List Nat) :=
  (varintDecode bs).bind fun p =>
    match p.1 with
    | 0 => some (.success, p.2)
    | 1 => some (.failure, p.2)
    | _ => none

/-- `ServerState` encoding. -/
def ServerState.encode : ServerState → List Nat
  | .started => varintEncode 0
  | .stopped st => varintEncode 1 ++ encodeOption ExitStatus.encode st

/-- `ServerState` decoding. -/
def decodeServerState (bs : List Nat) : Option (ServerState × List Nat) :=
  (varintDecode bs).bind fun p =>
    match p.1 with
    | 0 => some (.started, p.2)
    | 1 => (decodeOption decodeExitStatus p.2).map (fun q => (.stopped q.1, q.2))
    | _ => none

/-- `JavaPath` encoding. -/
def JavaPath.encode : JavaPath → List Nat
  | .autoDetect => varintEncode 0
  | .custom p => varintEncode 1 ++ encodeBytes p

/-- `JavaPath` decoding. -/
def decodeJavaPath (bs : List Nat) : Option (JavaPath × List Nat) :=
  (varintDecode bs).bind fun p =>
    match p.1 with
    | 0 => some (.autoDetect, p.2)
    | 1 => (decodeBytes p.2).map (fun q => (.custom q.1, q.2))
    | _ => none

/-- Encoding of a `Vec<String>`: `u64` varint length then each
string. -/
def encodeStrList (l : List RString) : List Nat :=
  varintEncode l.length ++ (l.map encodeBytes).flatten

/-- Decode `n` consecutive strings. -/
def decodeStrs : Nat → List Nat → Option (List RString × List Nat)
  | 0, bs => some ([], bs)
  | n + 1, bs =>
    (decodeBytes bs).bind fun p =>
      (decodeStrs n p.2).map (fun q => (p.1 :: q.1, q.2))

/-- Decoding of a `Vec<String>`. -/
def decodeStrList (bs : List Nat) : Option (List RString × List Nat) :=
  (varintDecode bs).bind fun p => decodeStrs p.1 p.2

/-- `Arguments` encoding. -/
def Arguments.encode : Arguments → List Nat
  | .parsed s => varintEncode 0 ++ encodeBytes s
  | .manual args => varintEncode 1 ++ encodeStrList args

/-- `Arguments` decoding. -/
def decodeArguments (bs : List Nat) : Option (Arguments × List Nat) :=
  (varintDecode bs).bind fun p =>
    match p.1 with
    | 0 => (decodeBytes p.2).map (fun q => (.parsed q.1, q.2))
    | 1 => (decodeStrList p.2).map (fun q => (.manual q.1, q.2))
    | _ => none

/-- `User` encoding. -/
def User.encode : User → List Nat
  | .current => varintEncode 0
  | .specific u => varintEncode 1 ++ encodeBytes u

/-- `User` decoding. -/
def decodeUser (bs : List Nat) : Option (User × List Nat) :=
  (varintDecode bs).bind fun p =>
    match p.1 with
    | 0 => some (.current, p.2)
    | 1 => (decodeBytes p.2).map (fun q => (.specific q.1, q.2))
    | _ => none

/-- `Config` encoding: the five fields in struct order. -/
def Config.encode (c : Config) : List Nat :=
  c.javaPath.encode ++ encodeBytes c.serverJarPath ++ c.javaArguments.encode ++
    c.serverArguments.encode ++ c.user.encode

/-- `Config` decoding. -/
def decodeConfig (bs : List Nat) : Option (Config × List Nat) :=
  (decodeJavaPath bs).bind fun p1 =>
    (decodeBytes p1.2).bind fun p2 =>
      (decodeArguments p2.2).bind fun p3 =>
        (decodeArguments p3.2).bind fun p4 =>
          (decodeUser p4.2).map fun p5 =>
            (⟨p1.1, p2.1, p3.1, p4.1, p5.1⟩, p5.2)

/-- `ErrorFrame` encoding: the four strings in struct order. -/
def ErrorFrame.encode (f : ErrorFrame) : List Nat :=
  encodeBytes f.display ++ encodeBytes f.altDisplay ++ encodeBytes f.debug ++
    encodeBytes f.altDebug

/-- `ErrorFrame` decoding. -/
def decodeErrorFrame (bs : List Nat) : Option (ErrorFrame × List Nat) :=
  (decodeBytes bs).bind fun p1 =>
    (decodeBytes p1.2).bind fun p2 =>
      (decodeBytes p2.2).bind fun p3 =>
        (decodeBytes p3.2).map fun p4 =>
          (⟨p1.1, p2.1, p3.1, p4.1⟩, p4.2)

/-- `SerdeError` encoding: the node's four strings, then the `Option`
byte for `source` (`0` = `None`, `1` = `Some` followed by the boxed
error). -/
def SerdeError.encode : SerdeError → List Nat
  | .leaf f => f.encode ++ [0]
  | .cons f s => f.encode ++ 1 :: s.encode

/-- `SerdeError` decoding, with fuel bounding the recursion depth (one
unit per `source` link; the byte stream shrinks by at least five bytes
per link, so any fuel of at least the input length suffices). -/
def decodeSerdeErrorFuel : Nat → List Nat → Option (SerdeError × List Nat)
  | 0, _ => none
  | fuel + 1, bs =>
    (decodeErrorFrame bs).bind fun p =>
      match p.2 with
      | 0 :: rest => some (.leaf p.1, rest)
      | 1 :: rest => (decodeSerdeErrorFuel fuel rest).map (fun q => (.cons p.1 q.1, q.2))
      | _ => none

/-- `SerdeError` decoding. -/
def decodeSerdeError (bs : List Nat) : Option (SerdeError × List Nat) :=
  decodeSerdeErrorFuel (bs.length + 1) bs

/-- `ClientToServerMessage` encoding: `u32` variant index then the
payload fields in order. -/
def ClientToServerMessage.encode : ClientToServerMessage → List Nat
  | .ping t => varintEncode 0 ++ t.encode
  | .getConfig t => varintEncode 1 ++ t.encode
  | .getServerState t => varintEncode 2 ++ t.encode
  | .updateConfig t c => varintEncode 3 ++ t.encode ++ c.encode
  | .performOperation t op => varintEncode 4 ++ t.encode ++ op.encode
  | .input b => varintEncode 5 ++ encodeBytes b
  | .shutdown => varintEncode 6

/-- `ClientToServerMessage` decoding (the reader side of
`bincode::decode_from_slice` in `read_subsystem_once`). -/
def decodeC2S (bs : List Nat) : Option (ClientToServerMessage × List Nat) :=
  (varintDecode bs).bind fun p =>
    match p.1 with
    | 0 => (decodeTaskId p.2).map (fun q => (.ping q.1, q.2))
    | 1 => (decodeTaskId p.2).map (fun q => (.getConfig q.1, q.2))
    | 2 => (decodeTaskId p.2).map (fun q => (.getServerState q.1, q.2))
    | 3 =>
      (decodeTaskId p.2).bind fun q =>
        (decodeConfig q.2).map (fun r => (.updateConfig q.1 r.1, r.2))
    | 4 =>
      (decodeTaskId p.2).bind fun q =>
        (decodeOperation q.2).map (fun r => (.performOperation q.1 r.1, r.2))
    | 5 => (decodeBytes p.2).map (fun q => (.input q.1, q.2))
    | 6 => some (.shutdown, p.2)
    | _ => none

/-- `ServerToClientMessage` encoding: `u32` variant index then the
payload fields in order. -/
def ServerToClientMessage.encode : ServerToClientMessage → List Nat
  | .pong t => varintEncode 0 ++ t.encode
  | .currentConfig c t => varintEncode 1 ++ encodeOption Config.encode c ++ t.encode
  | .currentServerState s t => varintEncode 2 ++ s.encode ++ t.encode
  | .configUpdated c t => varintEncode 3 ++ c.encode ++ encodeOption TaskId.encode t
  | .operationRequested op oid => varintEncode 4 ++ op.encode ++ oid.encode
  | .operationPerformed op oid t =>
    varintEncode 5 ++ op.encode ++ oid.encode ++ encodeOption TaskId.encode t
  | .operationFailed op oid e t =>
    varintEncode 6 ++ op.encode ++ oid.encode ++ e.encode ++ encodeOption TaskId.encode t
  | .serverStateUpdated s => varintEncode 7 ++ s.encode
  | .stdout b => varintEncode 8 ++ encodeBytes b
  | .stderr b => varintEncode 9 ++ encodeBytes b
  | .fatalError e => varintEncode 10 ++ e.encode
  | .error e t => varintEncode 11 ++ e.encode ++ encodeOption TaskId.encode t
  | .shuttingDown => varintEncode 12

/-- `ServerToClientMessage` decoding (the client side,
`bincode::decode_from_slice` in `ClientReader::recv`). -/
def decodeS2C (bs : List Nat) : Option (ServerToClientMessage × List Nat) :=
  (varintDecode bs).bind fun p =>
    match p.1 with
    | 0 => (decodeTaskId p.2).map (fun q => (.pong q.1, q.2))
    | 1 =>
      (decodeOption decodeConfig p.2).bind fun q =>
        (decodeTaskId q.2).map (fun r => (.currentConfig q.1 r.1, r.2))
    | 2 =>
      (decodeServerState p.2).bind fun q =>
        (decodeTaskId q.2).map (fun r => (.currentServerState q.1 r.1, r.2))
    | 3 =>
      (decodeConfig p.2).bind fun q =>
        (decodeOption decodeTaskId q.2).map (fun r => (.configUpdated q.1 r.1, r.2))
    | 4 =>
      (decodeOperation p.2).bind fun q =>
        (decodeOperationId q.2).map (fun r => (.operationRequested q.1 r.1, r.2))
    | 5 =>
      (decodeOperation p.2).bind fun q =>
        (decodeOperationId q.2).bind fun r =>
          (decodeOption decodeTaskId r.2).map (fun s => (.operationPerformed q.1 r.1 s.1, s.2))
    | 6 =>
      (decodeOperation p.2).bind fun q =>
        (decodeOperationId q.2).bind fun r =>
          (decodeSerdeError r.2).bind fun s =>
            (decodeOption decodeTaskId s.2).map
              (fun u => (.operationFailed q.1 r.1 s.1 u.1, u.2))
    | 7 => (decodeServerState p.2).map (fun q => (.serverStateUpdated q.1, q.2))
    | 8 => (decodeBytes p.2).map (fun q => (.stdout q.1, q.2))
    | 9 => (decodeBytes p.2).map (fun q => (.stderr q.1, q.2))
    | 10 => (decodeSerdeError p.2).map (fun q => (.fatalError q.1, q.2))
    | 11 =>
      (decodeSerdeError p.2).bind fun q =>
        (decodeOption decodeTaskId q.2).map (fun r => (.error q.1 r.1, r.2))
    | 12 => some (.shuttingDown, p.2)
    | _ => none

/-! ## Validity

A message is valid when every 64-bit quantity it carries — ids, string
and vector lengths — fits in a `u64`, which is what the Rust types
guarantee by construction. -/

/-- The byte sequence of a Rust `String`/`PathBuf`/`Vec<u8>` has a
`u64` length. -/
def validStr (s : RString) : Prop := s.length < 2 ^ 64

/-- A Rust `Vec<String>`: `u64` length and valid elements. -/
def validStrList (l : List RString) : Prop :=
  l.length < 2 ^ 64 ∧ ∀ s ∈ l, validStr s

/-- The payload of a valid `Option` is valid. -/
def optionValid (P : α → Prop) : Option α → Prop
  | none => True
  | some x => P x

/-- A `TaskId` carries a `u64`. -/
def TaskId.Valid (t : TaskId) : Prop := t.val < 2 ^ 64

/-- An `OperationId` carries a `u64`. -/
def OperationId.Valid (o : OperationId) : Prop := o.val < 2 ^ 64

/-- Validity of a `JavaPath`. -/
def JavaPath.Valid : JavaPath → Prop
  | .autoDetect => True
  | .custom p => validStr p

/-- Validity of an `Arguments`. -/
def Arguments.Valid : Arguments → Prop
  | .parsed s => validStr s
  | .manual args => validStrList args

/-- Validity of a `User`. -/
def User.Valid : User → Prop
  | .current => True
  | .specific u => validStr u

/-- Validity of a `Config`. -/
def Config.Valid (c : Config) : Prop :=
  c.javaPath.Valid ∧ validStr c.serverJarPath ∧ c.javaArguments.Valid ∧
    c.serverArguments.Valid ∧ c.user.Valid

/-- Validity of an `ErrorFrame`. -/
def ErrorFrame.Valid (f : ErrorFrame) : Prop :=
  validStr f.display ∧ validStr f.altDisplay ∧ validStr f.debug ∧ validStr f.altDebug

/-- Validity of a `SerdeError`. -/
def SerdeError.Valid : SerdeError → Prop
  | .leaf f => f.Valid
  | .cons f s => f.Valid ∧ s.Valid

/-- Validity of a `ClientToServerMessage`. -/
def ClientToServerMessage.Valid : ClientToServerMessage → Prop
  | .ping t => t.Valid
  | .getConfig t => t.Valid
  | .getServerState t => t.Valid
  | .updateConfig t c => t.Valid ∧ c.Valid
  | .performOperation t _ => t.Valid
  | .input b => validStr b
  | .shutdown => True

/-- Validity of a `ServerToClientMessage`. -/
def ServerToClientMessage.Valid : ServerToClientMessage → Prop
  | .pong t => t.Valid
  | .currentConfig c t => optionValid Config.Valid c ∧ t.Valid
  | .currentServerState _ t => t.Valid
  | .configUpdated c t => c.Valid ∧ optionValid TaskId.Valid t
  | .operationRequested _ oid => oid.Valid
  | .operationPerformed _ oid t => oid.Valid ∧ optionValid TaskId.Valid t
  | .operationFailed _ oid e t => oid.Valid ∧ e.Valid ∧ optionValid TaskId.Valid t
  | .serverStateUpdated _ => True
  | .stdout b => validStr b
  | .stderr b => validStr b
  | .fatalError e => e.Valid
  | .error e t => e.Valid ∧ optionValid TaskId.Valid t
  | .shuttingDown => True

/-! ## Codec round-trip lemmas -/

theorem leRead_leBytes (w : Nat) (n : Nat) (h : n < 256 ^ w) (r : List Nat) :
    leRead w (leBytes w n ++ r) = some (n, r) := by
  induction w generalizing n with
  | zero =>
    have : n = 0 := by simpa using h
    subst this
    simp [leBytes, leRead]
  | succ w ih =>
    have hdiv : n / 256 < 256 ^ w := by
      rw [Nat.div_lt_iff_lt_mul (by norm_num)]
      calc n < 256 ^ (w + 1) := h
        _ = 256 ^ w * 256 := by ring
    simp only [leBytes, leRead, List.cons_append, List.append_eq]
    rw [ih (n / 256) hdiv]
    simp [Nat.mod_add_div]

theorem varintDecode_encode (n : Nat) (h : n < 2 ^ 64) (r : List Nat) :
    varintDecode (varintEncode n ++ r) = some (n, r) := by
  unfold varintEncode
  by_cases h1 : n < 251
  · simp [h1, varintDecode]
  · by_cases h2 : n < 2 ^ 16
    · rw [if_neg h1, if_pos h2]
      simp only [List.cons_append, varintDecode, if_neg (by omega : ¬(251 : Nat) < 251),
        if_pos rfl]
      exact leRead_leBytes 2 n (by norm_num at h2 ⊢; omega) r
    · by_cases h3 : n < 2 ^ 32
      · rw [if_neg h1, if_neg h2, if_pos h3]
        simp only [List.cons_append, varintDecode, if_neg (by omega : ¬(252 : Nat) < 251),
          if_neg (by omega : (252 : Nat) ≠ 251), if_pos rfl]
        exact leRead_leBytes 4 n (by norm_num at h3 ⊢; omega) r
      · rw [if_neg h1, if_neg h2, if_neg h3]
        simp only [List.cons_append, varintDecode, if_neg (by omega : ¬(253 : Nat) < 251),
          if_neg (by omega : (253 : Nat) ≠ 251), if_neg (by omega : (253 : Nat) ≠ 252),
          if_pos rfl]
        exact leRead_leBytes 8 n (by norm_num at h ⊢; omega) r

theorem readN_append (xs r : List Nat) : readN xs.length (xs ++ r) = some (xs, r) := by
  induction xs with
  | nil => simp [readN]
  | cons b bs ih => simp [readN, ih]

theorem decodeBytes_encode (s : RString) (h : validStr s) (r : List Nat) :
    decodeBytes (encodeBytes s ++ r) = some (s, r) := by
  unfold decodeBytes encodeBytes
  rw [List.append_assoc, varintDecode_encode s.length h]
  simp [readN_append]

theorem decodeOption_encode {α : Type} (f : α → List Nat)
    (g : List Nat → Option (α × List Nat)) (x : Option α) (r : List Nat)
    (hfg : ∀ y r2, x = some y → g (f y ++ r2) = some (y, r2)) :
    decodeOption g (encodeOption f x ++ r) = some (x, r) := by
  cases x with
  | none => simp [encodeOption, decodeOption]
  | some y => simp [encodeOption, decodeOption, hfg y r rfl]

theorem decodeTaskId_encode (t : TaskId) (h : t.Valid) (r : List Nat) :
    decodeTaskId (t.encode ++ r) = some (t, r) := by
  unfold decodeTaskId TaskId.encode
  rw [varintDecode_encode t.val h]
  rfl

theorem decodeOperationId_encode (o : OperationId) (h : o.Valid) (r : List Nat) :
    decodeOperationId (o.encode ++ r) = some (o, r) := by
  unfold decodeOperationId OperationId.encode
  rw [varintDecode_encode o.val h]
  rfl

theorem decodeOperation_encode (op : Operation) (r : List Nat) :
    decodeOperation (op.encode ++ r) = some (op, r) := by
  cases op <;>
    · unfold decodeOperation Operation.encode
      rw [varintDecode_encode _ (by norm_num) r]
      rfl

theorem decodeExitStatus_encode (e : ExitStatus) (r : List Nat) :
    decodeExitStatus (e.encode ++ r) = some (e, r) := by
  cases e <;>
    · unfold decodeExitStatus ExitStatus.encode
      rw [varintDecode_encode _ (by norm_num) r]
      rfl

theorem decodeServerState_encode (s : ServerState) (r : List Nat) :
    decodeServerState (s.encode ++ r) = some (s, r) := by
  cases s with
  | started =>
    unfold decodeServerState ServerState.encode
    rw [varintDecode_encode _ (by norm_num) r]
    rfl
  | stopped st =>
    unfold decodeServerState ServerState.encode
    rw [List.append_assoc, varintDecode_encode _ (by norm_num)]
    show (decodeOption decodeExitStatus (encodeOption ExitStatus.encode st ++ r)).map _ = _
    rw [decodeOption_encode ExitStatus.encode decodeExitStatus st r
      (fun y r2 _ => decodeExitStatus_encode y r2)]
    rfl

theorem decodeJavaPath_encode (j : JavaPath) (h : j.Valid) (r : List Nat) :
    decodeJavaPath (j.encode ++ r) = some (j, r) := by
  cases j with
  | autoDetect =>
    unfold decodeJavaPath JavaPath.encode
    rw [varintDecode_encode _ (by norm_num) r]
    rfl
  | custom p =>
    unfold decodeJavaPath JavaPath.encode
    rw [List.append_assoc, varintDecode_encode _ (by norm_num)]
    show (decodeBytes (encodeBytes p ++ r)).map _ = _
    rw [decodeBytes_encode p h r]
    rfl

theorem decodeStrs_encode (l : List RString) (h : ∀ s ∈ l, validStr s) (r : List Nat) :
    decodeStrs l.length ((l.map encodeBytes).flatten ++ r) = some (l, r) := by
  induction l with
  | nil => simp [decodeStrs]
  | cons s tl ih =>
    simp only [List.length_cons, List.map_cons, List.flatten_cons, List.append_assoc,
      decodeStrs]
    rw [decodeBytes_encode s (h s (by simp)) _]
    simp only [Option.some_bind]
    rw [ih (fun x hx => h x (by simp [hx]))]
    rfl

theorem decodeStrList_encode (l : List RString) (h : validStrList l) (r : List Nat) :
    decodeStrList (encodeStrList l ++ r) = some (l, r) := by
  unfold decodeStrList encodeStrList
  rw [List.append_assoc, varintDecode_encode l.length h.1]
  show decodeStrs l.length ((l.map encodeBytes).flatten ++ r) = some (l, r)
  exact decodeStrs_encode l h.2 r

theorem decodeArguments_encode (a : Arguments) (h : a.Valid) (r : List Nat) :
    decodeArguments (a.encode ++ r) = some (a, r) := by
  cases a with
  | parsed s =>
    unfold decodeArguments Arguments.encode
    rw [List.append_assoc, varintDecode_encode _ (by norm_num)]
    show (decodeBytes (encodeBytes s ++ r)).map _ = _
    rw [decodeBytes_encode s h r]
    rfl
  | manual args =>
    unfold decodeArguments Arguments.encode
    rw [List.append_assoc, varintDecode_encode _ (by norm_num)]
    show (decodeStrList (encodeStrList args ++ r)).map _ = _
    rw [decodeStrList_encode args h r]
    rfl

theorem decodeUser_encode (u : User) (h : u.Valid) (r : List Nat) :
    decodeUser (u.encode ++ r) = some (u, r) := by
  cases u with
  | current =>
    unfold decodeUser User.encode
    rw [varintDecode_encode _ (by norm_num) r]
    rfl
  | specific name =>
    unfold decodeUser User.encode
    rw [List.append_assoc, varintDecode_encode _ (by norm_num)]
    show (decodeBytes (encodeBytes name ++ r)).map _ = _
    rw [decodeBytes_encode name h r]
    rfl

theorem decodeConfig_encode (c : Config) (h : c.Valid) (r : List Nat) :
    decodeConfig (c.encode ++ r) = some (c, r) := by
  obtain ⟨h1, h2, h3, h4, h5⟩ := h
  unfold decodeConfig Config.encode
  simp only [List.append_assoc]
  rw [decodeJavaPath_encode c.javaPath h1]
  simp only [Option.some_bind]
  rw [decodeBytes_encode c.serverJarPath h2]
  simp only [Option.some_bind]
  rw [decodeArguments_encode c.javaArguments h3]
  simp only [Option.some_bind]
  rw [decodeArguments_encode c.serverArguments h4]
  simp only [Option.some_bind]
  rw [decodeUser_encode c.user h5]
  rfl

theorem decodeErrorFrame_encode (f : ErrorFrame) (h : f.Valid) (r : List Nat) :
    decodeErrorFrame (f.encode ++ r) = some (f, r) := by
  obtain ⟨h1, h2, h3, h4⟩ := h
  unfold decodeErrorFrame ErrorFrame.encode
  simp only [List.append_assoc]
  rw [decodeBytes_encode f.display h1]
  simp only [Option.some_bind]
  rw [decodeBytes_encode f.altDisplay h2]
  simp only [Option.some_bind]
  rw [decodeBytes_encode f.debug h3]
  simp only [Option.some_bind]
  rw [decodeBytes_encode f.altDebug h4]
  rfl

/-- The number of `source` links in a `SerdeError` chain, bounding the
fuel its decoder needs. -/
def SerdeError.depth : SerdeError → Nat
  | .leaf _ => 1
  | .cons _ s => s.depth + 1

theorem depth_le_encode_length (e : SerdeError) : e.depth ≤ e.encode.length := by
  induction e with
  | leaf f => simp [SerdeError.depth, SerdeError.encode]
  | cons f s ih =>
    simp only [SerdeError.depth, SerdeError.encode, List.length_append, List.length_cons]
    omega

theorem decodeSerdeErrorFuel_encode (e : SerdeError) (fuel : Nat) (h : e.Valid)
    (hf : e.depth ≤ fuel) (r : List Nat) :
    decodeSerdeErrorFuel fuel (e.encode ++ r) = some (e, r) := by
  induction e generalizing fuel r with
  | leaf f =>
    obtain ⟨fuel, rfl⟩ : ∃ k, fuel = k + 1 := by
      cases fuel with
      | zero => simp [SerdeError.depth] at hf
      | succ k => exact ⟨k, rfl⟩
    show (decodeErrorFrame ((f.encode ++ [0]) ++ r)).bind _ = _
    rw [List.append_assoc, decodeErrorFrame_encode f h]
    rfl
  | cons f s ih =>
    obtain ⟨fuel, rfl⟩ : ∃ k, fuel = k + 1 := by
      cases fuel with
      | zero => simp [SerdeError.depth] at hf
      | succ k => exact ⟨k, rfl⟩
    show (decodeErrorFrame ((f.encode ++ 1 :: s.encode) ++ r)).bind _ = _
    rw [List.append_assoc, decodeErrorFrame_encode f h.1]
    show (decodeSerdeErrorFuel fuel (s.encode ++ r)).map _ = _
    rw [ih fuel h.2 (by simpa [SerdeError.depth] using hf) r]
    rfl

theorem decodeSerdeError_encode (e : SerdeError) (h : e.Valid) (r : List Nat) :
    decodeSerdeError (e.encode ++ r) = some (e, r) := by
  unfold decodeSerdeError
  refine decodeSerdeErrorFuel_encode e _ h ?_ r
  have := depth_le_encode_length e
  simp only [List.length_append]
  omega

theorem varintEncode_lit (k : Nat) (hk : k < 251) : varintEncode k = [k] := by
  simp [varintEncode, hk]

theorem varintDecode_lit (k : Nat) (hk : k < 251) (r : List Nat) :
    varintDecode (k :: r) = some (k, r) := by
  simp [varintDecode, hk]

theorem decodeOptionTaskId_encode (t : Option TaskId) (h : optionValid TaskId.Valid t)
    (r : List Nat) :
    decodeOption decodeTaskId (encodeOption TaskId.encode t ++ r) = some (t, r) := by
  exact decodeOption_encode TaskId.encode decodeTaskId t r
    (fun y r2 hy => decodeTaskId_encode y (by rw [hy] at h; exact h) r2)

theorem decodeOptionConfig_encode (c : Option Config) (h : optionValid Config.Valid c)
    (r : List Nat) :
    decodeOption decodeConfig (encodeOption Config.encode c ++ r) = some (c, r) := by
  exact decodeOption_encode Config.encode decodeConfig c r
    (fun y r2 hy => decodeConfig_encode y (by rw [hy] at h; exact h) r2)

theorem decodeC2S_encode (m : ClientToServerMessage) (h : m.Valid) (r : List Nat) :
    decodeC2S (m.encode ++ r) = some (m, r) := by
  cases m with
  | ping t =>
    simp only [ClientToServerMessage.encode]
    unfold decodeC2S
    rw [varintEncode_lit 0 (by norm_num)]
    simp only [List.append_assoc, List.cons_append, List.nil_append]
    rw [varintDecode_lit 0 (by norm_num)]
    simp only [Option.some_bind]
    rw [decodeTaskId_encode t h r]
    rfl
  | getConfig t =>
    simp only [ClientToServerMessage.encode]
    unfold decodeC2S
    rw [varintEncode_lit 1 (by norm_num)]
    simp only [List.append_assoc, List.cons_append, List.nil_append]
    rw [varintDecode_lit 1 (by norm_num)]
    simp only [Option.some_bind]
    rw [decodeTaskId_encode t h r]
    rfl
  | getServerState t =>
    simp only [ClientToServerMessage.encode]
    unfold decodeC2S
    rw [varintEncode_lit 2 (by norm_num)]
    simp only [List.append_assoc, List.cons_append, List.nil_append]
    rw [varintDecode_lit 2 (by norm_num)]
    simp only [Option.some_bind]
    rw [decodeTaskId_encode t h r]
    rfl
  | updateConfig t c =>
    simp only [ClientToServerMessage.encode]
    unfold decodeC2S
    rw [varintEncode_lit 3 (by norm_num)]
    simp only [List.append_assoc, List.cons_append, List.nil_append]
    rw [varintDecode_lit 3 (by norm_num)]
    simp only [Option.some_bind]
    rw [decodeTaskId_encode t h.1]
    simp only [Option.some_bind]
    rw [decodeConfig_encode c h.2 r]
    rfl
  | performOperation t op =>
    simp only [ClientToServerMessage.encode]
    unfold decodeC2S
    rw [varintEncode_lit 4 (by norm_num)]
    simp only [List.append_assoc, List.cons_append, List.nil_append]
    rw [varintDecode_lit 4 (by norm_num)]
    simp only [Option.some_bind]
    rw [decodeTaskId_encode t h]
    simp only [Option.some_bind]
    rw [decodeOperation_encode op r]
    rfl
  | input b =>
    simp only [ClientToServerMessage.encode]
    unfold decodeC2S
    rw [varintEncode_lit 5 (by norm_num)]
    simp only [List.append_assoc, List.cons_append, List.nil_append]
    rw [varintDecode_lit 5 (by norm_num)]
    simp only [Option.some_bind]
    rw [decodeBytes_encode b h r]
    rfl
  | shutdown =>
    simp only [ClientToServerMessage.encode]
    unfold decodeC2S
    rw [varintEncode_lit 6 (by norm_num)]
    simp only [List.append_assoc, List.cons_append, List.nil_append]
    rw [varintDecode_lit 6 (by norm_num)]
    rfl

theorem decodeS2C_encode (m : ServerToClientMessage) (h : m.Valid) (r : List Nat) :
    decodeS2C (m.encode ++ r) = some (m, r) := by
  cases m with
  | pong t =>
    simp only [ServerToClientMessage.encode]
    unfold decodeS2C
    rw [varintEncode_lit 0 (by norm_num)]
    simp only [List.append_assoc, List.cons_append, List.nil_append]
    rw [varintDecode_lit 0 (by norm_num)]
    simp only [Option.some_bind]
    rw [decodeTaskId_encode t h r]
    rfl
  | currentConfig c t =>
    simp only [ServerToClientMessage.encode]
    unfold decodeS2C
    rw [varintEncode_lit 1 (by norm_num)]
    simp only [List.append_assoc, List.cons_append, List.nil_append]
    rw [varintDecode_lit 1 (by norm_num)]
    simp only [Option.some_bind]
    rw [decodeOptionConfig_encode c h.1]
    simp only [Option.some_bind]
    rw [decodeTaskId_encode t h.2 r]
    rfl
  | currentServerState s t =>
    simp only [ServerToClientMessage.encode]
    unfold decodeS2C
    rw [varintEncode_lit 2 (by norm_num)]
    simp only [List.append_assoc, List.cons_append, List.nil_append]
    rw [varintDecode_lit 2 (by norm_num)]
    simp only [Option.some_bind]
    rw [decodeServerState_encode s]
    simp only [Option.some_bind]
    rw [decodeTaskId_encode t h r]
    rfl
  | configUpdated c t =>
    simp only [ServerToClientMessage.encode]
    unfold decodeS2C
    rw [varintEncode_lit 3 (by norm_num)]
    simp only [List.append_assoc, List.cons_append, List.nil_append]
    rw [varintDecode_lit 3 (by norm_num)]
    simp only [Option.some_bind]
    rw [decodeConfig_encode c h.1]
    simp only [Option.some_bind]
    rw [decodeOptionTaskId_encode t h.2 r]
    rfl
  | operationRequested op oid =>
    simp only [ServerToClientMessage.encode]
    unfold decodeS2C
    rw [varintEncode_lit 4 (by norm_num)]
    simp only [List.append_assoc, List.cons_append, List.nil_append]
    rw [varintDecode_lit 4 (by norm_num)]
    simp only [Option.some_bind]
    rw [decodeOperation_encode op]
    simp only [Option.some_bind]
    rw [decodeOperationId_encode oid h r]
    rfl
  | operationPerformed op oid t =>
    simp only [ServerToClientMessage.encode]
    unfold decodeS2C
    rw [varintEncode_lit 5 (by norm_num)]
    simp only [List.append_assoc, List.cons_append, List.nil_append]
    rw [varintDecode_lit 5 (by norm_num)]
    simp only [Option.some_bind]
    rw [decodeOperation_encode op]
    simp only [Option.some_bind]
    rw [decodeOperationId_encode oid h.1]
    simp only [Option.some_bind]
    rw [decodeOptionTaskId_encode t h.2 r]
    rfl
  | operationFailed op oid e t =>
    simp only [ServerToClientMessage.encode]
    unfold decodeS2C
    rw [varintEncode_lit 6 (by norm_num)]
    simp only [List.append_assoc, List.cons_append, List.nil_append]
    rw [varintDecode_lit 6 (by norm_num)]
    simp only [Option.some_bind]
    rw [decodeOperation_encode op]
    simp only [Option.some_bind]
    rw [decodeOperationId_encode oid h.1]
    simp only [Option.some_bind]
    rw [decodeSerdeError_encode e h.2.1]
    simp only [Option.some_bind]
    rw [decodeOptionTaskId_encode t h.2.2 r]
    rfl
  | serverStateUpdated s =>
    simp only [ServerToClientMessage.encode]
    unfold decodeS2C
    rw [varintEncode_lit 7 (by norm_num)]
    simp only [List.append_assoc, List.cons_append, List.nil_append]
    rw [varintDecode_lit 7 (by norm_num)]
    simp only [Option.some_bind]
    rw [decodeServerState_encode s r]
    rfl
  | stdout b =>
    simp only [ServerToClientMessage.encode]
    unfold decodeS2C
    rw [varintEncode_lit 8 (by norm_num)]
    simp only [List.append_assoc, List.cons_append, List.nil_append]
    rw [varintDecode_lit 8 (by norm_num)]
    simp only [Option.some_bind]
    rw [decodeBytes_encode b h r]
    rfl
  | stderr b =>
    simp only [ServerToClientMessage.encode]
    unfold decodeS2C
    rw [varintEncode_lit 9 (by norm_num)]
    simp only [List.append_assoc, List.cons_append, List.nil_append]
    rw [varintDecode_lit 9 (by norm_num)]
    simp only [Option.some_bind]
    rw [decodeBytes_encode b h r]
    rfl
  | fatalError e =>
    simp only [ServerToClientMessage.encode]
    unfold decodeS2C
    rw [varintEncode_lit 10 (by norm_num)]
    simp only [List.append_assoc, List.cons_append, List.nil_append]
    rw [varintDecode_lit 10 (by norm_num)]
    simp only [Option.some_bind]
    rw [decodeSerdeError_encode e h r]
    rfl
  | error e t =>
    simp only [ServerToClientMessage.encode]
    unfold decodeS2C
    rw [varintEncode_lit 11 (by norm_num)]
    simp only [List.append_assoc, List.cons_append, List.nil_append]
    rw [varintDecode_lit 11 (by norm_num)]
    simp only [Option.some_bind]
    rw [decodeSerdeError_encode e h.1]
    simp only [Option.some_bind]
    rw [decodeOptionTaskId_encode t h.2 r]
    rfl
  | shuttingDown =>
    simp only [ServerToClientMessage.encode]
    unfold decodeS2C
    rw [varintEncode_lit 12 (by norm_num)]
    simp only [List.append_assoc, List.cons_append, List.nil_append]
    rw [varintDecode_lit 12 (by norm_num)]
    rfl

/-! ## Framing (`write_subsystem_once` in `src/server/src/network.rs`,
`ClientWriter::send_message` and `ClientReader::recv` in
`src/client/src/lib.rs`) -/

/-- The frame `write_subsystem_once` produces for a server→client
message: `(data.len() as u32).to_le_bytes()` — the body length truncated
to 32 bits, little-endian — followed by the bincode body. -/
def frameS2C (m : ServerToClientMessage) : List Nat :=
  leBytes 4 (m.encode.length % 2 ^ 32) ++ m.encode

/-- The frame `ClientWriter::send_message` produces for a client→server
message (same construction as the server side). -/
def frameC2S (m : ClientToServerMessage) : List Nat :=
  leBytes 4 (m.encode.length % 2 ^ 32) ++ m.encode

/-- One `ClientReader::recv`: `read_exact` the 4-byte length prefix,
`read_exact` that many body bytes, then `bincode::decode_from_slice` on
the body (whose unconsumed tail, the second component of
`decode_from_slice`, is discarded by `.map(|(m, _)| m)`).  Returns the
message and the unread remainder of the stream; `none` is an
`Err(RecvMessageError)` (short read or decode failure). -/
def clientRecvOnce (bs : List Nat) : Option (ServerToClientMessage × List Nat) :=
  (leRead 4 bs).bind fun p =>
    (readN p.1 p.2).bind fun q =>
      (decodeS2C q.1).map fun m => (m.1, q.2)

/-- Repeated `ClientReader::recv` until the stream is exhausted.  The
fuel only bounds the number of frames; every frame consumes at least its
four prefix bytes, so fuel equal to the stream length always suffices. -/
def recvAllFuel : Nat → List Nat → Option (List ServerToClientMessage)
  | 0, bs => if bs = [] then some [] else none
  | fuel + 1, bs =>
    if bs = [] then some []
    else (clientRecvOnce bs).bind fun p => (recvAllFuel fuel p.2).map (p.1 :: ·)

/-- Decode an entire byte stream as a sequence of frames. -/
def recvAll (bs : List Nat) : Option (List ServerToClientMessage) :=
  recvAllFuel bs.length bs

theorem leBytes_length (w n : Nat) : (leBytes w n).length = w := by
  induction w generalizing n with
  | zero => rfl
  | succ w ih => simp [leBytes, ih]

theorem clientRecvOnce_frame (m : ServerToClientMessage) (hv : m.Valid)
    (hlen : m.encode.length < 2 ^ 32) (r : List Nat) :
    clientRecvOnce (frameS2C m ++ r) = some (m, r) := by
  unfold clientRecvOnce frameS2C
  rw [List.append_assoc, leRead_leBytes 4 _ (by
    have : (256 : Nat) ^ 4 = 2 ^ 32 := by norm_num
    rw [this]
    exact Nat.mod_lt _ (by norm_num))]
  simp only [Option.some_bind, Nat.mod_eq_of_lt hlen]
  rw [show readN m.encode.length (m.encode ++ r) = some (m.encode, r) from
    readN_append m.encode r]
  simp only [Option.some_bind]
  have hd := decodeS2C_encode m hv []
  rw [List.append_nil] at hd
  rw [hd]
  rfl

theorem frameS2C_length (m : ServerToClientMessage) :
    (frameS2C m).length = 4 + m.encode.length := by
  simp [frameS2C, leBytes_length]

theorem length_le_flatten_frames (ms : List ServerToClientMessage) :
    ms.length ≤ ((ms.map frameS2C).flatten).length := by
  induction ms with
  | nil => simp
  | cons m tl ih =>
    simp only [List.map_cons, List.flatten_cons, List.length_append, List.length_cons,
      frameS2C_length]
    omega

theorem recvAllFuel_frames (ms : List ServerToClientMessage)
    (h : ∀ m ∈ ms, m.Valid ∧ m.encode.length < 2 ^ 32) (fuel : Nat)
    (hf : ms.length ≤ fuel) :
    recvAllFuel fuel ((ms.map frameS2C).flatten) = some ms := by
  induction ms generalizing fuel with
  | nil => cases fuel <;> simp [recvAllFuel]
  | cons m tl ih =>
    obtain ⟨fuel, rfl⟩ : ∃ k, fuel = k + 1 := by
      cases fuel with
      | zero => simp at hf
      | succ k => exact ⟨k, rfl⟩
    have hne : (((m :: tl).map frameS2C).flatten) ≠ [] := by
      intro he
      have := congrArg List.length he
      simp only [List.map_cons, List.flatten_cons, List.length_append, frameS2C_length,
        List.length_nil] at this
      omega
    simp only [List.map_cons, List.flatten_cons] at hne ⊢
    rw [recvAllFuel, if_neg hne,
      clientRecvOnce_frame m (h m (by simp)).1 (h m (by simp)).2]
    simp only [Option.some_bind]
    rw [ih (fun x hx => h x (by simp [hx])) fuel (by simpa using hf)]
    rfl

instance (s : RString) : Decidable (validStr s) := by
  unfold validStr
  infer_instance

instance (l : List RString) : Decidable (validStrList l) := by
  unfold validStrList
  infer_instance

instance {α : Type} {P : α → Prop} [DecidablePred P] :
    (x : Option α) → Decidable (optionValid P x)
  | none => .isTrue trivial
  | some y => inferInstanceAs (Decidable (P y))

instance (t : TaskId) : Decidable t.Valid := by
  unfold TaskId.Valid
  infer_instance

instance (o : OperationId) : Decidable o.Valid := by
  unfold OperationId.Valid
  infer_instance

instance : (j : JavaPath) → Decidable j.Valid
  | .autoDetect => .isTrue trivial
  | .custom p => inferInstanceAs (Decidable (validStr p))

instance : (a : Arguments) → Decidable a.Valid
  | .parsed s => inferInstanceAs (Decidable (validStr s))
  | .manual args => inferInstanceAs (Decidable (validStrList args))

instance : (u : User) → Decidable u.Valid
  | .current => .isTrue trivial
  | .specific name => inferInstanceAs (Decidable (validStr name))

instance (c : Config) : Decidable c.Valid := by
  unfold Config.Valid
  infer_instance

instance (f : ErrorFrame) : Decidable f.Valid := by
  unfold ErrorFrame.Valid
  infer_instance

instance serdeErrorValidDecidable : (e : SerdeError) → Decidable e.Valid
  | .leaf f => inferInstanceAs (Decidable f.Valid)
  | .cons f s =>
    haveI := serdeErrorValidDecidable s
    inferInstanceAs (Decidable (f.Valid ∧ s.Valid))

instance : (m : ClientToServerMessage) → Decidable m.Valid
  | .ping t => inferInstanceAs (Decidable t.Valid)
  | .getConfig t => inferInstanceAs (Decidable t.Valid)
  | .getServerState t => inferInstanceAs (Decidable t.Valid)
  | .updateConfig t c => inferInstanceAs (Decidable (t.Valid ∧ c.Valid))
  | .performOperation t _ => inferInstanceAs (Decidable t.Valid)
  | .input b => inferInstanceAs (Decidable (validStr b))
  | .shutdown => .isTrue trivial

instance : (m : ServerToClientMessage) → Decidable m.Valid
  | .pong t => inferInstanceAs (Decidable t.Valid)
  | .currentConfig c t =>
    inferInstanceAs (Decidable (optionValid Config.Valid c ∧ t.Valid))
  | .currentServerState _ t => inferInstanceAs (Decidable t.Valid)
  | .configUpdated c t =>
    inferInstanceAs (Decidable (c.Valid ∧ optionValid TaskId.Valid t))
  | .operationRequested _ oid => inferInstanceAs (Decidable oid.Valid)
  | .operationPerformed _ oid t =>
    inferInstanceAs (Decidable (oid.Valid ∧ optionValid TaskId.Valid t))
  | .operationFailed _ oid e t =>
    inferInstanceAs (Decidable (oid.Valid ∧ e.Valid ∧ optionValid TaskId.Valid t))
  | .serverStateUpdated _ => .isTrue trivial
  | .stdout b => inferInstanceAs (Decidable (validStr b))
  | .stderr b => inferInstanceAs (Decidable (validStr b))
  | .fatalError e => inferInstanceAs (Decidable e.Valid)
  | .error e t => inferInstanceAs (Decidable (e.Valid ∧ optionValid TaskId.Valid t))
  | .shuttingDown => .isTrue trivial

theorem readN_nil_of_pos (n : Nat) (h : 0 < n) : readN n ([] : List Nat) = none := by
  cases n with
  | zero => omega
  | succ k => rfl

/-- Claim C4 (amended): for every valid protocol message whose encoded
body is shorter than `2 ^ 32` bytes, decoding the frame produced by
encoding it (4-byte little-endian `u32` length prefix followed by the
bincode body) yields the message again with nothing left over, and a
concatenation of such frames decodes to the original sequence of
messages in order with no residual bytes.  (The bound is forced by the
`data.len() as u32` truncation in the frame writer; see the
counterexample.) -/
theorem c4_framing_roundtrip :
    (∀ m : ServerToClientMessage, m.Valid → m.encode.length < 2 ^ 32 →
      clientRecvOnce (frameS2C m) = some (m, [])) ∧
    (∀ ms : List ServerToClientMessage,
      (∀ m ∈ ms, m.Valid ∧ m.encode.length < 2 ^ 32) →
      recvAll ((ms.map frameS2C).flatten) = some ms) := by
  constructor
  · intro m hv hl
    have := clientRecvOnce_frame m hv hl []
    simpa using this
  · intro ms h
    exact recvAllFuel_frames ms h _ (length_le_flatten_frames ms)

/-- Claim C4 witness: the amended round-trip evaluated on a `Pong` frame
and on a two-message stream. -/
theorem c4_framing_roundtrip_witness :
    clientRecvOnce (frameS2C (.pong ⟨43690⟩)) = some (.pong ⟨43690⟩, []) ∧
    recvAll ((([.pong ⟨1⟩, .shuttingDown] : List ServerToClientMessage).map
      frameS2C).flatten) = some [.pong ⟨1⟩, .shuttingDown] :=
  ⟨c4_framing_roundtrip.1 _ (by decide) (by decide),
    c4_framing_roundtrip.2 _ (by decide)⟩

/-- Claim C4 counterexample: the claim as stated fails for the valid
message `Stdout` carrying `2 ^ 32` bytes.  Its body is `2 ^ 32 + 10`
bytes long, the writer truncates that length to the `u32` value `10`, so
the reader takes only the first ten body bytes, whose decode then runs
out of input: decoding the encoded frame does not yield the message
back. -/
theorem c4_counterexample :
    clientRecvOnce (frameS2C (.stdout (List.replicate (2 ^ 32) 0))) = none := by
  have hvar : varintEncode (2 ^ 32) = 253 :: leBytes 8 (2 ^ 32) := by
    norm_num [varintEncode]
  have hbody : (ServerToClientMessage.stdout (List.replicate (2 ^ 32) 0)).encode
      = (8 :: 253 :: leBytes 8 (2 ^ 32)) ++ List.replicate (2 ^ 32) 0 := by
    show varintEncode 8 ++ encodeBytes (List.replicate (2 ^ 32) 0) = _
    unfold encodeBytes
    rw [List.length_replicate, hvar, varintEncode_lit 8 (by norm_num)]
    simp only [List.cons_append, List.nil_append, List.append_assoc]
  have hlen : (ServerToClientMessage.stdout (List.replicate (2 ^ 32) 0)).encode.length
      = 2 ^ 32 + 10 := by
    rw [hbody]
    rw [List.length_append, List.length_replicate]
    simp only [List.length_cons, leBytes_length]
    omega
  have hmod : (2 ^ 32 + 10) % 2 ^ 32 = 10 := by
    rw [Nat.add_mod_left]
    norm_num
  have hdb : decodeBytes (253 :: leBytes 8 (2 ^ 32)) = none := by
    unfold decodeBytes
    rw [show varintDecode (253 :: leBytes 8 (2 ^ 32)) = leRead 8 (leBytes 8 (2 ^ 32)) from by
      norm_num [varintDecode]]
    have hle := leRead_leBytes 8 (2 ^ 32) (by norm_num) []
    rw [List.append_nil] at hle
    rw [hle]
    simp only [Option.some_bind]
    rw [readN_nil_of_pos _ (by norm_num)]
    rfl
  unfold clientRecvOnce frameS2C
  rw [hlen, hmod, hbody]
  rw [leRead_leBytes 4 10 (by norm_num)]
  simp only [Option.some_bind]
  rw [show (10 : Nat) = (8 :: 253 :: leBytes 8 (2 ^ 32)).length from by
    simp [leBytes_length]]
  rw [readN_append]
  simp only [Option.some_bind]
  unfold decodeS2C
  rw [varintDecode_lit 8 (by norm_num)]
  simp only [Option.some_bind]
  rw [hdb]
  rfl

/-! ## Per-connection reader (`read_subsystem_once` / `read_subsystem`
in `src/server/src/network.rs`)

The byte-stream model exposes exactly the failure `read_exact` can
report on a finite stream: exhaustion (`UnexpectedEof`), which the code
maps to `ControlFlow::Break(Ok(()))` — a clean break — wherever it
occurs.  A failed body decode is `Break(Err(_))`, which the loop logs
with `tracing::error!`. -/

/-- `u32::from_le_bytes` over an exact 4-byte buffer (little-endian
fold). -/
def leValue (bs : List Nat) : Nat := bs.foldr (fun b acc => b + 256 * acc) 0

/-- Outcome of one `read_subsystem_once` call. -/
inductive ReadStep where
  | cont (len : Option Nat) (rest : List Nat) (forwarded : Option ClientToServerMessage)
  | breakClean
  | breakError
deriving DecidableEq

/-- One iteration of the reader: allocate `len.unwrap_or(4)` bytes,
`read_exact` them (exhaustion is `UnexpectedEof` → clean break); with no
pending length, record the `u32` prefix and continue; with a pending
length, `bincode`-decode the body and forward the message (decode
failure is an error break). -/
def readSubsystemOnce (len : Option Nat) (stream : List Nat) : ReadStep :=
  match readN (len.getD 4) stream with
  | none => .breakClean
  | some (buf, rest) =>
    match len with
    | none => .cont (some (leValue buf)) rest none
    | some _ =>
      match decodeC2S buf with
      | some md => .cont none rest (some md.1)
      | none => .breakError

/-- How the reader loop ended. -/
inductive ReadStatus where
  | clean    -- `Break(Ok(()))`: normal disconnect, nothing logged
  | errored  -- `Break(Err(_))`: `tracing::error!` fires before the break
  | starved  -- fuel ran out (never reached with fuel above the stream length)
deriving DecidableEq

/-- The `read_subsystem` loop over a finite stream: the messages
forwarded to the network task, and how the loop ended.  Fuel bounds the
iteration count; every iteration consumes at least one byte, so any fuel
above the stream length is enough. -/
def readLoopFuel : Nat → Option Nat → List Nat → List ClientToServerMessage × ReadStatus
  | 0, _, _ => ([], .starved)
  | fuel + 1, len, s =>
    match readSubsystemOnce len s with
    | .breakClean => ([], .clean)
    | .breakError => ([], .errored)
    | .cont len2 rest sent =>
      let p := readLoopFuel fuel len2 rest
      (sent.toList ++ p.1, p.2)

/-- The reader loop on a complete incoming stream. -/
def readLoop (s : List Nat) : List ClientToServerMessage × ReadStatus :=
  readLoopFuel (s.length + 1) none s

theorem leValue_leBytes (w n : Nat) (h : n < 256 ^ w) : leValue (leBytes w n) = n := by
  induction w generalizing n with
  | zero =>
    have : n = 0 := by simpa using h
    subst this
    rfl
  | succ w ih =>
    have hdiv : n / 256 < 256 ^ w := by
      rw [Nat.div_lt_iff_lt_mul (by norm_num)]
      calc n < 256 ^ (w + 1) := h
        _ = 256 ^ w * 256 := by ring
    show (n % 256) + 256 * leValue (leBytes w (n / 256)) = n
    rw [ih (n / 256) hdiv, Nat.mod_add_div]

theorem readN_leBytes (w v : Nat) (tail : List Nat) :
    readN w (leBytes w v ++ tail) = some (leBytes w v, tail) := by
  have h := readN_append (leBytes w v) tail
  rwa [leBytes_length] at h

theorem readN_eq_none_of_short (n : Nat) (bs : List Nat) (h : bs.length < n) :
    readN n bs = none := by
  induction bs generalizing n with
  | nil => exact readN_nil_of_pos n (by simpa using h)
  | cons b tl ih =>
    obtain ⟨k, rfl⟩ : ∃ k, n = k + 1 := by
      cases n with
      | zero => simp at h
      | succ k => exact ⟨k, rfl⟩
    show (readN k tl).map _ = none
    rw [ih k (by simpa using h)]
    rfl

theorem varintEncode_length_pos (n : Nat) : 0 < (varintEncode n).length := by
  unfold varintEncode
  split
  · simp
  · split
    · simp
    · split <;> simp

theorem encodeC2S_length_pos (m : ClientToServerMessage) : 0 < m.encode.length := by
  cases m <;> simp only [ClientToServerMessage.encode, List.length_append] <;>
    · have h0 := varintEncode_length_pos 0
      have h1 := varintEncode_length_pos 1
      have h2 := varintEncode_length_pos 2
      have h3 := varintEncode_length_pos 3
      have h4 := varintEncode_length_pos 4
      have h5 := varintEncode_length_pos 5
      have h6 := varintEncode_length_pos 6
      omega

theorem frameC2S_length (m : ClientToServerMessage) :
    (frameC2S m).length = 4 + m.encode.length := by
  simp [frameC2S, leBytes_length]

theorem readLoopFuel_frame_step (m : ClientToServerMessage) (hv : m.Valid)
    (hl : m.encode.length < 2 ^ 32) (rest : List Nat) (fuel : Nat) :
    readLoopFuel (fuel + 2) none (frameC2S m ++ rest)
      = ((readLoopFuel fuel none rest).1.cons m, (readLoopFuel fuel none rest).2) := by
  have hstep1 : readSubsystemOnce none (frameC2S m ++ rest)
      = .cont (some m.encode.length) (m.encode ++ rest) none := by
    unfold readSubsystemOnce frameC2S
    rw [List.append_assoc]
    rw [show (Option.getD none 4) = 4 from rfl]
    rw [readN_leBytes 4 _ (m.encode ++ rest)]
    show ReadStep.cont (some (leValue (leBytes 4 (m.encode.length % 2 ^ 32))))
      (m.encode ++ rest) none = _
    rw [leValue_leBytes 4 _ (by
      have h32 : (256 : Nat) ^ 4 = 2 ^ 32 := by norm_num
      rw [h32]
      exact Nat.mod_lt _ (by norm_num))]
    rw [Nat.mod_eq_of_lt hl]
  have hstep2 : readSubsystemOnce (some m.encode.length) (m.encode ++ rest)
      = .cont none rest (some m) := by
    unfold readSubsystemOnce
    rw [show (Option.getD (some m.encode.length) 4) = m.encode.length from rfl]
    rw [readN_append m.encode rest]
    have hd := decodeC2S_encode m hv []
    rw [List.append_nil] at hd
    show (match decodeC2S m.encode with
      | some md => ReadStep.cont none rest (some md.1)
      | none => ReadStep.breakError) = _
    rw [hd]
  show (match readSubsystemOnce none (frameC2S m ++ rest) with
    | .breakClean => ([], ReadStatus.clean)
    | .breakError => ([], ReadStatus.errored)
    | .cont len2 r sent =>
      let p := readLoopFuel (fuel + 1) len2 r
      (sent.toList ++ p.1, p.2)) = _
  rw [hstep1]
  show (let p := readLoopFuel (fuel + 1) (some m.encode.length) (m.encode ++ rest)
    ((Option.toList none) ++ p.1, p.2)) = _
  show (let p := (match readSubsystemOnce (some m.encode.length) (m.encode ++ rest) with
    | .breakClean => ([], ReadStatus.clean)
    | .breakError => ([], ReadStatus.errored)
    | .cont len2 r sent =>
      let p := readLoopFuel fuel len2 r
      (sent.toList ++ p.1, p.2))
    ((Option.toList none) ++ p.1, p.2)) = _
  rw [hstep2]
  rfl

theorem readLoopFuel_truncated (m : ClientToServerMessage)
    (hl : m.encode.length < 2 ^ 32) (k : Nat) (hk : k < (frameC2S m).length)
    (fuel : Nat) :
    readLoopFuel (fuel + 2) none ((frameC2S m).take k) = ([], .clean) := by
  by_cases h4 : k < 4
  · have hshort : ((frameC2S m).take k).length < 4 := by
      have := List.length_take_le k (frameC2S m)
      omega
    have : readSubsystemOnce none ((frameC2S m).take k) = .breakClean := by
      unfold readSubsystemOnce
      rw [show (Option.getD none 4) = 4 from rfl]
      rw [readN_eq_none_of_short 4 _ hshort]
    show (match readSubsystemOnce none ((frameC2S m).take k) with
      | .breakClean => ([], ReadStatus.clean)
      | .breakError => ([], ReadStatus.errored)
      | .cont len2 r sent =>
        let p := readLoopFuel (fuel + 1) len2 r
        (sent.toList ++ p.1, p.2)) = _
    rw [this]
  · push_neg at h4
    have hpre : (leBytes 4 (m.encode.length % 2 ^ 32)).length = 4 := leBytes_length _ _
    have htake : (frameC2S m).take k
        = leBytes 4 (m.encode.length % 2 ^ 32) ++ m.encode.take (k - 4) := by
      unfold frameC2S
      rw [List.take_append_eq_append_take, List.take_of_length_le (by omega), hpre]
    have hlt : (m.encode.take (k - 4)).length < m.encode.length := by
      rw [frameC2S_length] at hk
      rw [List.length_take]
      omega
    have hstep1 : readSubsystemOnce none ((frameC2S m).take k)
        = .cont (some m.encode.length) (m.encode.take (k - 4)) none := by
      unfold readSubsystemOnce
      rw [htake, show (Option.getD none 4) = 4 from rfl, readN_leBytes]
      show ReadStep.cont (some (leValue (leBytes 4 (m.encode.length % 2 ^ 32))))
        (m.encode.take (k - 4)) none = _
      rw [leValue_leBytes 4 _ (by
        have h32 : (256 : Nat) ^ 4 = 2 ^ 32 := by norm_num
        rw [h32]
        exact Nat.mod_lt _ (by norm_num))]
      rw [Nat.mod_eq_of_lt hl]
    have hstep2 : readSubsystemOnce (some m.encode.length) (m.encode.take (k - 4))
        = .breakClean := by
      unfold readSubsystemOnce
      rw [show (Option.getD (some m.encode.length) 4) = m.encode.length from rfl]
      rw [readN_eq_none_of_short _ _ hlt]
    show (match readSubsystemOnce none ((frameC2S m).take k) with
      | .breakClean => ([], ReadStatus.clean)
      | .breakError => ([], ReadStatus.errored)
      | .cont len2 r sent =>
        let p := readLoopFuel (fuel + 1) len2 r
        (sent.toList ++ p.1, p.2)) = _
    rw [hstep1]
    show (let p := (match readSubsystemOnce (some m.encode.length) (m.encode.take (k - 4)) with
      | .breakClean => ([], ReadStatus.clean)
      | .breakError => ([], ReadStatus.errored)
      | .cont len2 r sent =>
        let p := readLoopFuel fuel len2 r
        (sent.toList ++ p.1, p.2))
      ((Option.toList none) ++ p.1, p.2)) = _
    rw [hstep2]
    rfl

theorem readLoopFuel_frames_then (msgs : List ClientToServerMessage)
    (h : ∀ x ∈ msgs, x.Valid ∧ x.encode.length < 2 ^ 32) (t : List Nat)
    (htail : ∀ f, readLoopFuel (f + 2) none t = ([], .clean)) (extra : Nat) :
    readLoopFuel (2 * msgs.length + 2 + extra) none ((msgs.map frameC2S).flatten ++ t)
      = (msgs, .clean) := by
  induction msgs generalizing extra with
  | nil =>
    have h2 := htail extra
    simp only [List.length_nil, List.map_nil, List.flatten_nil, List.nil_append]
    rw [show 2 * 0 + 2 + extra = extra + 2 from by omega]
    exact h2
  | cons m tl ih =>
    have harith : 2 * (m :: tl).length + 2 + extra = (2 * tl.length + 2 + extra) + 2 := by
      simp only [List.length_cons]
      ring
    rw [harith]
    simp only [List.map_cons, List.flatten_cons, List.append_assoc]
    rw [readLoopFuel_frame_step m (h m (by simp)).1 (h m (by simp)).2]
    rw [ih (fun x hx => h x (by simp [hx]))]

theorem flatten_frames_length_lb (msgs : List ClientToServerMessage) :
    5 * msgs.length ≤ ((msgs.map frameC2S).flatten).length := by
  induction msgs with
  | nil => simp
  | cons m tl ih =>
    have hm := encodeC2S_length_pos m
    simp only [List.map_cons, List.flatten_cons, List.length_append, List.length_cons,
      frameC2S_length]
    omega

/-- Claim C3 (amended): in the per-connection reader, an end-of-stream
that occurs exactly between messages terminates the connection as a
normal disconnect with no logged error — and so does an end-of-stream in
the middle of a frame (partway through the 4-byte prefix, or after the
prefix but before the full body): `read_exact` reports `UnexpectedEof`
wherever the stream ends, and `read_subsystem_once` maps every
`UnexpectedEof` to `Break(Ok(()))`, so a short read mid-frame is also a
clean disconnect, not a protocol error.  (Only a failed body decode is a
protocol error.)  Stated: after any complete frames, a stream cut at any
point `k` strictly inside the next frame — including `k = 0`, the clean
boundary — yields exactly the complete messages and a clean,
error-free termination. -/
theorem c3_reader_eof_clean (msgs : List ClientToServerMessage)
    (h : ∀ x ∈ msgs, x.Valid ∧ x.encode.length < 2 ^ 32)
    (m : ClientToServerMessage) (hl : m.encode.length < 2 ^ 32)
    (k : Nat) (hk : k < (frameC2S m).length) :
    readLoop ((msgs.map frameC2S).flatten ++ (frameC2S m).take k) = (msgs, .clean) := by
  by_cases hz : msgs = [] ∧ k = 0
  · obtain ⟨hm, hk0⟩ := hz
    subst hm
    subst hk0
    rfl
  · have hlen_take : ((frameC2S m).take k).length = k := by
      rw [List.length_take]
      omega
    have hflat := flatten_frames_length_lb msgs
    have hstream : ((msgs.map frameC2S).flatten ++ (frameC2S m).take k).length
        = ((msgs.map frameC2S).flatten).length + k := by
      rw [List.length_append, hlen_take]
    have hor : 1 ≤ msgs.length ∨ 1 ≤ k := by
      rcases Nat.eq_zero_or_pos msgs.length with h0 | h1
      · rcases Nat.eq_zero_or_pos k with hk0 | hk1
        · exact absurd ⟨List.length_eq_zero.mp h0, hk0⟩ hz
        · exact Or.inr hk1
      · exact Or.inl h1
    unfold readLoop
    rw [hstream]
    obtain ⟨extra, hext⟩ : ∃ e,
        ((msgs.map frameC2S).flatten).length + k + 1 = 2 * msgs.length + 2 + e := by
      refine ⟨((msgs.map frameC2S).flatten).length + k + 1 - (2 * msgs.length + 2), ?_⟩
      omega
    rw [hext]
    exact readLoopFuel_frames_then msgs h _ (fun f => readLoopFuel_truncated m hl k hk f)
      extra

/-- Claim C3 witness: one complete `Shutdown` frame followed by the
first two bytes of a `Ping` frame decodes the `Shutdown` and ends
cleanly. -/
theorem c3_reader_eof_clean_witness :
    readLoop (((([.shutdown] : List ClientToServerMessage).map frameC2S).flatten)
      ++ (frameC2S (.ping ⟨7⟩)).take 2) = ([.shutdown], .clean) :=
  c3_reader_eof_clean _ (by decide) _ (by decide) 2 (by decide)

/-- Claim C3 counterexample: the stream `[1, 0, 0, 0]` is a complete
length prefix announcing a one-byte body, ended exactly "after the
prefix but before the full body".  The claim says this mid-frame
end-of-stream is treated as a protocol error; the reader instead
terminates as a clean disconnect (`Break(Ok(()))`, nothing logged). -/
theorem c3_counterexample : readLoop [1, 0, 0, 0] = ([], .clean) := by decide

/-! ## Network actor (`src/server/src/network.rs`) and supervisor
(`src/server/src/base.rs`)

The slab registry is modelled as a list of `ClientId` keys (slab keys
are unique) with senders identified by the key: a "send on a client's
outbound queue" becomes a pair `(ClientId, message)`.  Oneshot reply
channels are dropped; the value that would travel back is returned
directly or taken as a parameter. -/

/-- `ClientKind` from `src/server/src/network.rs`. -/
inductive ClientKind where
  | unix
  | tcp
deriving DecidableEq

/-- `NetworkToServerMessage` from `src/server/src/base.rs`, with the
oneshot reply senders dropped. -/
inductive NetworkToServerMessage where
  | getConfig
  | getServerState
  | updateConfig (config : Config)
  | performOperation (operation : Operation)
  | input (bytes : RString)
  | shutdown
deriving DecidableEq

/-- `MessageBroadcaster` from `src/server/src/network.rs`: a snapshot of
sender clones plus at most one designated initiator sender. -/
structure MessageBroadcaster where
  senders : List Nat
  activeTask : Option (TaskId × Nat)
deriving DecidableEq

/-- `NetworkTask::message_broadcaster`: with an active `(ClientId,
TaskId)` the registry snapshot is split into the initiator's sender
(removed from the map, present only when the client is registered) and
everyone else's. -/
def messageBroadcaster (clients : List Nat) (activeTask : Option (Nat × TaskId)) :
    MessageBroadcaster :=
  match activeTask with
  | some (clientId, taskId) =>
    { senders := clients.filter (fun c => c ≠ clientId)
      activeTask := if clientId ∈ clients then some (taskId, clientId) else none }
  | none => { senders := clients, activeTask := none }

/-- `MessageBroadcaster::broadcast_with_task_id`: the initiator (if any)
receives `message_fn(Some(task_id))`, then every other sender receives
`message_fn(None)`. -/
def MessageBroadcaster.broadcastWithTaskId (b : MessageBroadcaster)
    (messageFn : Option TaskId → ServerToClientMessage) :
    List (Nat × ServerToClientMessage) :=
  (match b.activeTask with
    | some (taskId, tx) => [(tx, messageFn (some taskId))]
    | none => []) ++ b.senders.map (fun tx => (tx, messageFn none))

/-- `NetworkTask::broadcast_message`: one copy of the message to every
registered client. -/
def broadcastMessage (clients : List Nat) (message : ServerToClientMessage) :
    List (Nat × ServerToClientMessage) :=
  clients.map (fun c => (c, message))

/-- The completion the spawned responder of
`handle_c2s_perform_operation` broadcasts once the supervisor acks:
`OperationPerformed` on `Ok(())`, `OperationFailed` with the serialised
error on `Err`. -/
def completionMessage (operation : Operation) (opId : OperationId)
    (result : Except SerdeError Unit) (tid : Option TaskId) : ServerToClientMessage :=
  match result with
  | .ok _ => .operationPerformed operation opId tid
  | .error e => .operationFailed operation opId e tid

/-- The completion sends of `handle_c2s_perform_operation`: the
broadcaster snapshot taken at dispatch time, with the sender as
initiator, applied to the completion message. -/
def performCompletionSends (clients : List Nat) (clientId : Nat) (taskId : TaskId)
    (operation : Operation) (opId : OperationId) (result : Except SerdeError Unit) :
    List (Nat × ServerToClientMessage) :=
  (messageBroadcaster clients (some (clientId, taskId))).broadcastWithTaskId
    (completionMessage operation opId result)

/-- One externally visible action of the network actor. -/
inductive NetEvent where
  | enqueue (client : Nat) (message : ServerToClientMessage)
  | toSupervisor (message : NetworkToServerMessage)
deriving DecidableEq

/-- The action trace of `handle_c2s_perform_operation` in program
order: the `OperationRequested` broadcast, then the
`NetworkToServerMessage::PerformOperation` send to the supervisor, then
— after the spawned responder's oneshot await returns, hence after the
supervisor received the request — the completion broadcast.  The
freshly generated `OperationId` and the supervisor's eventual result are
parameters. -/
def handleC2SPerformOperation (clients : List Nat) (clientId : Nat) (taskId : TaskId)
    (operation : Operation) (opId : OperationId) (result : Except SerdeError Unit) :
    List NetEvent :=
  (broadcastMessage clients (.operationRequested operation opId)).map
    (fun p => .enqueue p.1 p.2)
  ++ .toSupervisor (.performOperation operation)
    :: (performCompletionSends clients clientId taskId operation opId result).map
      (fun p => .enqueue p.1 p.2)

/-- The registry as the slab stores it for dispatch purposes: key and
`ClientKind`. -/
def lookupClient (clients : List (Nat × ClientKind)) (id : Nat) : Option ClientKind :=
  (clients.find? (fun p => p.1 = id)).map (fun p => p.2)

/-- Result of `NetworkTask::handle_c2s_shutdown`: whether the
"not a remote client" warning fired, and what was sent to the
supervisor. -/
structure ShutdownDispatch where
  warnedNotLocal : Bool
  forwarded : List NetworkToServerMessage
deriving DecidableEq

/-- `NetworkTask::handle_c2s_shutdown`: an unknown client id only logs
and returns; otherwise a non-Unix client triggers the warning — and the
`Shutdown` is sent to the supervisor unconditionally (the send sits
outside the `if`). -/
def handleC2SShutdown (clients : List (Nat × ClientKind)) (id : Nat) : ShutdownDispatch :=
  match lookupClient clients id with
  | none => { warnedNotLocal := false, forwarded := [] }
  | some kind =>
    { warnedNotLocal := kind ≠ ClientKind.unix
      forwarded := [.shutdown] }

/-- The supervisor's mutable state relevant to `handle_n2s`
(`ServerTask`, `src/server/src/base.rs`): the in-memory config. -/
structure ServerTaskState where
  config : Option Config
deriving DecidableEq

/-- A value sent back over a `handle_n2s` oneshot reply channel. -/
inductive ServerReply where
  | currentConfig (config : Option Config)
  | unit
deriving DecidableEq

/-- `ServerToChildMessage` from `src/server/src/child.rs`, oneshot
senders dropped. -/
inductive ServerToChildMessage where
  | stdin (bytes : RString)
  | start
  | stop
  | restart
  | serverState
  | updateConfig (config : Config)
deriving DecidableEq

/-- An externally visible action of `ServerTask::handle_n2s`. -/
inductive ServerEffect where
  | toChild (message : ServerToChildMessage)
  | reply (r : ServerReply)
  | requestShutdown
deriving DecidableEq

/-- `ServerTask::handle_n2s`.  `dumpResult` abstracts the outcome of
`config.dump().await`; a failure is only logged (the handler's
behaviour does not depend on it).  `UpdateConfig` persists
(best-effort), replaces the in-memory config, notifies the child
subsystem and replies `()`; `Shutdown` requests global shutdown on the
subsystem handle. -/
def handleN2S (_dumpResult : Except Unit Unit) (st : ServerTaskState) :
    NetworkToServerMessage → ServerTaskState × List ServerEffect
  | .getConfig => (st, [.reply (.currentConfig st.config)])
  | .getServerState => (st, [.toChild .serverState])
  | .updateConfig config =>
    ({ config := some config }, [.toChild (.updateConfig config), .reply .unit])
  | .performOperation operation =>
    (st, [.toChild (match operation with
      | .start => .start
      | .stop => .stop
      | .restart => .restart)])
  | .input bytes => (st, [.toChild (.stdin bytes)])
  | .shutdown => (st, [.requestShutdown])

/-- Claim C2: evaluating the dispatch at the failing input — a TCP
client (registry `[(0, Tcp)]`) sends `Shutdown`.  The warning fires, yet
`NetworkToServerMessage::Shutdown` is still forwarded to the supervisor
(the send at `network.rs:557` is outside the `if`), and the supervisor's
`Shutdown` arm unconditionally requests global daemon shutdown — the
daemon does not remain running, contradicting the claim and the protocol
doc comment "operation can only be performed by a local client". -/
theorem c2_tcp_shutdown_forwarded :
    handleC2SShutdown [(0, .tcp)] 0
      = { warnedNotLocal := true, forwarded := [.shutdown] } ∧
    handleN2S (.ok ()) { config := none } .shutdown
      = ({ config := none }, [.requestShutdown]) :=
  ⟨rfl, rfl⟩

theorem filter_eq_single_of_nodup {l : List Nat} (hnd : l.Nodup) (c : Nat) (hc : c ∈ l) :
    l.filter (fun x => x = c) = [c] := by
  induction l with
  | nil => simp at hc
  | cons a tl ih =>
    rw [List.nodup_cons] at hnd
    rcases List.mem_cons.mp hc with rfl | hmem
    · rw [List.filter_cons_of_pos (by simp)]
      rw [List.filter_eq_nil_iff.mpr ?_]
      · intro x hx
        simp only [decide_eq_true_eq]
        intro he
        subst he
        exact hnd.1 hx
    · by_cases hac : a = c
      · subst hac
        exact absurd hmem hnd.1
      · rw [List.filter_cons_of_neg (by simp [hac])]
        exact ih hnd.2 hmem

theorem filter_fst_map_pair (l : List Nat) (msg : ServerToClientMessage) (c : Nat) :
    (l.map (fun x => (x, msg))).filter (fun p => p.1 = c)
      = (l.filter (fun x => x = c)).map (fun x => (x, msg)) := by
  induction l with
  | nil => rfl
  | cons a tl ih =>
    by_cases h : a = c
    · subst h
      rw [List.map_cons, List.filter_cons_of_pos (by simp),
        List.filter_cons_of_pos (by simp), List.map_cons, ih]
    · rw [List.map_cons, List.filter_cons_of_neg (by simp [h]),
        List.filter_cons_of_neg (by simp [h]), ih]

theorem performCompletionSends_shape (clients : List Nat) (clientId : Nat)
    (hmem : clientId ∈ clients) (taskId : TaskId) (operation : Operation)
    (opId : OperationId) (result : Except SerdeError Unit) :
    performCompletionSends clients clientId taskId operation opId result
      = (clientId, completionMessage operation opId result (some taskId))
        :: (clients.filter (fun c => c ≠ clientId)).map
            (fun c => (c, completionMessage operation opId result none)) := by
  unfold performCompletionSends messageBroadcaster MessageBroadcaster.broadcastWithTaskId
  simp [hmem]

/-- Claim C1: for every accepted `PerformOperation` dispatched on behalf
of a registered client C, the completion broadcast (the broadcaster
snapshot taken at dispatch time applied to
`OperationPerformed`/`OperationFailed`) sends exactly one tagged copy
(`task = Some`) to C, exactly one untagged copy (`task = None`) to each
other client of the snapshot, and no client receives both a tagged and
an untagged copy. -/
theorem c1_exactly_one_completion (clients : List Nat) (hnd : clients.Nodup)
    (clientId : Nat) (hmem : clientId ∈ clients) (taskId : TaskId)
    (operation : Operation) (opId : OperationId) (result : Except SerdeError Unit) :
    ((performCompletionSends clients clientId taskId operation opId result).filter
        (fun p => p.1 = clientId)
      = [(clientId, completionMessage operation opId result (some taskId))]) ∧
    (∀ c ∈ clients, c ≠ clientId →
      (performCompletionSends clients clientId taskId operation opId result).filter
          (fun p => p.1 = c)
        = [(c, completionMessage operation opId result none)]) ∧
    (∀ c : Nat,
      ¬((c, completionMessage operation opId result (some taskId))
          ∈ performCompletionSends clients clientId taskId operation opId result ∧
        (c, completionMessage operation opId result none)
          ∈ performCompletionSends clients clientId taskId operation opId result)) := by
  have hneq : completionMessage operation opId result (some taskId)
      ≠ completionMessage operation opId result none := by
    cases result <;> simp [completionMessage]
  have hshape := performCompletionSends_shape clients clientId hmem taskId operation opId
    result
  refine ⟨?_, ?_, ?_⟩
  · rw [hshape, List.filter_cons_of_pos (by simp)]
    rw [List.filter_eq_nil_iff.mpr ?_]
    intro y hy
    obtain ⟨x, hx, rfl⟩ := List.mem_map.mp hy
    have := (List.mem_filter.mp hx).2
    simp only [decide_eq_true_eq] at this ⊢
    exact this
  · intro c hc hcne
    rw [hshape, List.filter_cons_of_neg (by simp [Ne.symm hcne]), filter_fst_map_pair]
    rw [filter_eq_single_of_nodup (hnd.filter _) c
      (List.mem_filter.mpr ⟨hc, by simp [hcne]⟩)]
    rfl
  · intro c ⟨h1, h2⟩
    rw [hshape] at h1 h2
    have hc1 : c = clientId := by
      rcases List.mem_cons.mp h1 with he | hmap
      · exact (Prod.mk.injEq _ _ _ _).mp he |>.1
      · obtain ⟨x, _, hx⟩ := List.mem_map.mp hmap
        exact absurd ((Prod.mk.injEq _ _ _ _).mp hx).2.symm hneq
    have hc2 : c ≠ clientId := by
      rcases List.mem_cons.mp h2 with he | hmap
      · exact absurd ((Prod.mk.injEq _ _ _ _).mp he).2 (Ne.symm hneq)
      · obtain ⟨x, hxmem, hx⟩ := List.mem_map.mp hmap
        obtain ⟨rfl, -⟩ := (Prod.mk.injEq _ _ _ _).mp hx
        have := (List.mem_filter.mp hxmem).2
        simpa using this
    exact hc2 hc1

/-- Claim C1 witness: the completion broadcast evaluated on the
three-client registry `[0, 1, 2]` with initiator `1`. -/
theorem c1_exactly_one_completion_witness :
    ((performCompletionSends [0, 1, 2] 1 ⟨9⟩ .start ⟨5⟩ (.ok ())).filter
        (fun p => p.1 = 1)
      = [(1, completionMessage .start ⟨5⟩ (.ok ()) (some ⟨9⟩))]) ∧
    ((performCompletionSends [0, 1, 2] 1 ⟨9⟩ .start ⟨5⟩ (.ok ())).filter
        (fun p => p.1 = 2)
      = [(2, completionMessage .start ⟨5⟩ (.ok ()) none)]) := by
  have h := c1_exactly_one_completion [0, 1, 2] (by decide) 1 (by decide) ⟨9⟩ .start ⟨5⟩
    (.ok ())
  exact ⟨h.1, h.2.1 2 (by decide) (by decide)⟩

/-- The event is an `OperationRequested` enqueue. -/
def NetEvent.isRequested : NetEvent → Bool
  | .enqueue _ (.operationRequested _ _) => true
  | _ => false

/-- The event is the request send to the supervisor. -/
def NetEvent.isSupervisorSend : NetEvent → Bool
  | .toSupervisor _ => true
  | _ => false

/-- The event is an `OperationPerformed`/`OperationFailed` enqueue. -/
def NetEvent.isCompletion : NetEvent → Bool
  | .enqueue _ (.operationPerformed _ _ _) => true
  | .enqueue _ (.operationFailed _ _ _ _) => true
  | _ => false

theorem mem_performCompletionSends (clients : List Nat) (clientId : Nat) (taskId : TaskId)
    (operation : Operation) (opId : OperationId) (result : Except SerdeError Unit)
    {p : Nat × ServerToClientMessage}
    (hp : p ∈ performCompletionSends clients clientId taskId operation opId result) :
    ∃ c t0, p = (c, completionMessage operation opId result t0) := by
  unfold performCompletionSends MessageBroadcaster.broadcastWithTaskId
    messageBroadcaster at hp
  rcases List.mem_append.mp hp with hhead | htail
  · by_cases hc : clientId ∈ clients
    · simp only [hc, if_true] at hhead
      rw [List.mem_singleton] at hhead
      exact ⟨clientId, some taskId, hhead⟩
    · simp only [hc, if_false] at hhead
      simp at hhead
  · obtain ⟨x, _, rfl⟩ := List.mem_map.mp htail
    exact ⟨x, none, rfl⟩

theorem netTrace_ordering (A C : List NetEvent) (s : NetEvent)
    (hA : ∀ x ∈ A, x.isRequested = true ∧ x.isSupervisorSend = false ∧
      x.isCompletion = false)
    (hs : s.isRequested = false ∧ s.isSupervisorSend = true ∧ s.isCompletion = false)
    (hC : ∀ x ∈ C, x.isRequested = false ∧ x.isSupervisorSend = false ∧
      x.isCompletion = true) :
    ∀ i j (hi : i < (A ++ s :: C).length) (hj : j < (A ++ s :: C).length),
      (((A ++ s :: C).get ⟨i, hi⟩).isRequested = true →
        ((A ++ s :: C).get ⟨j, hj⟩).isSupervisorSend = true → i < j) ∧
      (((A ++ s :: C).get ⟨i, hi⟩).isSupervisorSend = true →
        ((A ++ s :: C).get ⟨j, hj⟩).isCompletion = true → i < j) ∧
      (((A ++ s :: C).get ⟨i, hi⟩).isRequested = true →
        ((A ++ s :: C).get ⟨j, hj⟩).isCompletion = true → i < j) := by
  intro i j hi hj
  have hkind : ∀ (k : Nat) (hk : k < (A ++ s :: C).length),
      (k < A.length ∧ (A ++ s :: C).get ⟨k, hk⟩ ∈ A)
      ∨ (k = A.length ∧ (A ++ s :: C).get ⟨k, hk⟩ = s)
      ∨ (A.length < k ∧ (A ++ s :: C).get ⟨k, hk⟩ ∈ C) := by
    intro k hk
    rw [List.get_eq_getElem]
    by_cases h1 : k < A.length
    · left
      refine ⟨h1, ?_⟩
      rw [List.getElem_append_left h1]
      exact List.getElem_mem _
    · push_neg at h1
      rw [List.getElem_append_right h1]
      rcases Nat.lt_or_ge k (A.length + 1) with h2 | h2
      · have hzero : k - A.length = 0 := by omega
        refine Or.inr (Or.inl ⟨by omega, ?_⟩)
        simp only [hzero, List.getElem_cons_zero]
      · obtain ⟨n, hn⟩ : ∃ n, k - A.length = n + 1 := ⟨k - A.length - 1, by omega⟩
        refine Or.inr (Or.inr ⟨by omega, ?_⟩)
        simp only [hn, List.getElem_cons_succ]
        exact List.getElem_mem _
  have hreq : ∀ (k : Nat) (hk : k < (A ++ s :: C).length),
      ((A ++ s :: C).get ⟨k, hk⟩).isRequested = true → k < A.length := by
    intro k hk h
    rcases hkind k hk with ⟨h1, _⟩ | ⟨_, he⟩ | ⟨_, hmem⟩
    · exact h1
    · rw [he, hs.1] at h
      exact absurd h (by simp)
    · rw [(hC _ hmem).1] at h
      exact absurd h (by simp)
  have hsup : ∀ (k : Nat) (hk : k < (A ++ s :: C).length),
      ((A ++ s :: C).get ⟨k, hk⟩).isSupervisorSend = true → k = A.length := by
    intro k hk h
    rcases hkind k hk with ⟨_, hmem⟩ | ⟨h1, _⟩ | ⟨_, hmem⟩
    · rw [(hA _ hmem).2.1] at h
      exact absurd h (by simp)
    · exact h1
    · rw [(hC _ hmem).2.1] at h
      exact absurd h (by simp)
  have hcomp : ∀ (k : Nat) (hk : k < (A ++ s :: C).length),
      ((A ++ s :: C).get ⟨k, hk⟩).isCompletion = true → A.length < k := by
    intro k hk h
    rcases hkind k hk with ⟨_, hmem⟩ | ⟨_, he⟩ | ⟨h1, _⟩
    · rw [(hA _ hmem).2.2] at h
      exact absurd h (by simp)
    · rw [he, hs.2.2] at h
      exact absurd h (by simp)
    · exact h1
  refine ⟨?_, ?_, ?_⟩
  · intro h1 h2
    have ha := hreq i hi h1
    have hb := hsup j hj h2
    omega
  · intro h1 h2
    have ha := hsup i hi h1
    have hb := hcomp j hj h2
    omega
  · intro h1 h2
    have ha := hreq i hi h1
    have hb := hcomp j hj h2
    omega

/-- Claim C7: in the action trace of `handle_c2s_perform_operation`,
every `OperationRequested` enqueue precedes the send to the supervisor,
which precedes every completion enqueue — so the `OperationRequested`
broadcast to all clients happens strictly before the supervisor is
asked, and therefore before the corresponding
`OperationPerformed`/`OperationFailed` completion reaches any client's
queue. -/
theorem c7_requested_before_completion (clients : List Nat) (clientId : Nat)
    (taskId : TaskId) (operation : Operation) (opId : OperationId)
    (result : Except SerdeError Unit) :
    ∀ i j
      (hi : i < (handleC2SPerformOperation clients clientId taskId operation opId
        result).length)
      (hj : j < (handleC2SPerformOperation clients clientId taskId operation opId
        result).length),
      (((handleC2SPerformOperation clients clientId taskId operation opId result).get
          ⟨i, hi⟩).isRequested = true →
        ((handleC2SPerformOperation clients clientId taskId operation opId result).get
          ⟨j, hj⟩).isSupervisorSend = true → i < j) ∧
      (((handleC2SPerformOperation clients clientId taskId operation opId result).get
          ⟨i, hi⟩).isSupervisorSend = true →
        ((handleC2SPerformOperation clients clientId taskId operation opId result).get
          ⟨j, hj⟩).isCompletion = true → i < j) ∧
      (((handleC2SPerformOperation clients clientId taskId operation opId result).get
          ⟨i, hi⟩).isRequested = true →
        ((handleC2SPerformOperation clients clientId taskId operation opId result).get
          ⟨j, hj⟩).isCompletion = true → i < j) := by
  unfold handleC2SPerformOperation
  refine netTrace_ordering _ _ _ ?_ ⟨rfl, rfl, rfl⟩ ?_
  · intro x hx
    obtain ⟨p, hp, rfl⟩ := List.mem_map.mp hx
    obtain ⟨cc, _, rfl⟩ := List.mem_map.mp hp
    exact ⟨rfl, rfl, rfl⟩
  · intro x hx
    obtain ⟨p, hp, rfl⟩ := List.mem_map.mp hx
    obtain ⟨cc, t0, rfl⟩ := mem_performCompletionSends clients clientId taskId operation
      opId result hp
    cases result <;> exact ⟨rfl, rfl, rfl⟩

/-- Claim C7 witness: the trace for registry `[0, 1]`, initiator `0`,
evaluated at the first `OperationRequested` enqueue (index 0) and the
supervisor send (index 2). -/
theorem c7_requested_before_completion_witness :
    (((handleC2SPerformOperation [0, 1] 0 ⟨3⟩ .stop ⟨4⟩ (.ok ())).get
        ⟨0, by decide⟩).isRequested = true →
      ((handleC2SPerformOperation [0, 1] 0 ⟨3⟩ .stop ⟨4⟩ (.ok ())).get
        ⟨2, by decide⟩).isSupervisorSend = true → 0 < 2) ∧
    (((handleC2SPerformOperation [0, 1] 0 ⟨3⟩ .stop ⟨4⟩ (.ok ())).get
        ⟨0, by decide⟩).isSupervisorSend = true →
      ((handleC2SPerformOperation [0, 1] 0 ⟨3⟩ .stop ⟨4⟩ (.ok ())).get
        ⟨2, by decide⟩).isCompletion = true → 0 < 2) ∧
    (((handleC2SPerformOperation [0, 1] 0 ⟨3⟩ .stop ⟨4⟩ (.ok ())).get
        ⟨0, by decide⟩).isRequested = true →
      ((handleC2SPerformOperation [0, 1] 0 ⟨3⟩ .stop ⟨4⟩ (.ok ())).get
        ⟨2, by decide⟩).isCompletion = true → 0 < 2) :=
  c7_requested_before_completion [0, 1] 0 ⟨3⟩ .stop ⟨4⟩ (.ok ()) 0 2 (by decide)
    (by decide)

/-! ## Configuration resolution (`src/protocol/src/config.rs`,
`src/protocol/src/utils.rs`) and the child actor's environment

The process environment, the shell tokeniser (`shlex::split`) and the
process spawner are external collaborators, passed in as an explicit
`Env`. -/

/-- The external world consulted by `JavaPath::resolve`,
`Arguments::resolve` and `Command::spawn`: the `JAVA_HOME` variable, the
result of searching `PATH` for the `java` executable, the shell
tokeniser, and the spawn outcome (`Ok` carries `child.id()`). -/
structure Env where
  javaHome : Option RString
  pathJava : Option RString
  shlex : RString → Option (List RString)
  spawnResult : Except Unit (Option Nat)

/-- The byte sequence of `/bin/java`, appended by the `JAVA_HOME`
auto-detection (`PathBuf::join("bin").join("java")` modelled as suffix
concatenation). -/
def binJavaSuffix : RString := [47, 98, 105, 110, 47, 106, 97, 118, 97]

/-- `utils::auto_detect_java_from_java_home_env`. -/
def autoDetectJavaFromJavaHomeEnv (env : Env) : Option RString :=
  env.javaHome.map (fun home => home ++ binJavaSuffix)

/-- `utils::auto_detect_java_from_system_path` (the `PATH` walk is
abstracted to its result). -/
def autoDetectJavaFromSystemPath (env : Env) : Option RString :=
  env.pathJava

/-- `JavaPath::resolve`: auto-detect consults `JAVA_HOME` first, then
the system path; a custom path resolves to itself. -/
def JavaPath.resolve (env : Env) : JavaPath → Option RString
  | .autoDetect =>
    (autoDetectJavaFromJavaHomeEnv env).orElse (fun _ => autoDetectJavaFromSystemPath env)
  | .custom path => some path

/-- `JavaPath::kind`. -/
def JavaPath.kind : JavaPath → JavaPathKind
  | .autoDetect => .autoDetect
  | .custom _ => .custom

/-- `Arguments::resolve`: `Parsed` is shell-tokenised (failure when
`shlex::split` rejects the string), `Manual` is used as-is. -/
def Arguments.resolve (env : Env) : Arguments → Option (List RString)
  | .parsed s => env.shlex s
  | .manual args => some args

/-- `User::resolve`. -/
def User.resolve : User → Option RString
  | .current => none
  | .specific user => some user

/-- `User::kind`. -/
def User.kind : User → UserKind
  | .current => .current
  | .specific _ => .specific

/-- `ResolvedConfig` from the `resolved` module of
`src/protocol/src/config.rs`. -/
structure ResolvedConfig where
  javaPath : RString
  serverJarPath : RString
  javaArguments : Arguments
  serverArguments : Arguments
  user : Option RString
deriving DecidableEq

/-- `ConfigMask` from the `resolved` module. -/
structure ConfigMask where
  javaPath : JavaPathKind
  user : UserKind
deriving DecidableEq

/-- `Config::resolve`: resolves the Java path (the only fallible step),
clones the remaining fields, and records which branch of each variant
was active in the mask. -/
def Config.resolve (env : Env) (c : Config) : Option (ResolvedConfig × ConfigMask) :=
  (c.javaPath.resolve env).map fun jp =>
    ({ javaPath := jp
       serverJarPath := c.serverJarPath
       serverArguments := c.serverArguments
       javaArguments := c.javaArguments
       user := c.user.resolve },
     { javaPath := c.javaPath.kind, user := c.user.kind })

/-- `Config::from_resolved`: rebuilds a `Config` from the resolved
values and the mask; the `(None, Specific)` user combination is the
source's `panic!("invalid user configuration")`, modelled as `none`. -/
def Config.fromResolved (rc : ResolvedConfig) (mask : ConfigMask) : Option Config :=
  (match rc.user, mask.user with
    | some u, .specific => some (User.specific u)
    | _, .current => some User.current
    | none, .specific => none).map fun user =>
    { javaPath := match mask.javaPath with
        | .autoDetect => JavaPath.autoDetect
        | .custom => JavaPath.custom rc.javaPath
      serverJarPath := rc.serverJarPath
      serverArguments := rc.serverArguments
      javaArguments := rc.javaArguments
      user := user }

/-- Claim C9: whenever `Config::resolve` succeeds, feeding the
`(ResolvedConfig, ConfigMask)` pair back through `Config::from_resolved`
reproduces the original `Config`; in particular the
AutoDetect-vs-Custom branch of `java_path` and the Current-vs-Specific
branch of `user` survive the round trip. -/
theorem c9_config_mask_roundtrip (env : Env) (c : Config) (rc : ResolvedConfig)
    (mask : ConfigMask) (h : Config.resolve env c = some (rc, mask)) :
    Config.fromResolved rc mask = some c := by
  obtain ⟨cjp, cjar, cja, csa, cu⟩ := c
  unfold Config.resolve at h
  cases hj : JavaPath.resolve env cjp with
  | none =>
    rw [hj] at h
    simp at h
  | some jp =>
    rw [hj] at h
    simp only [Option.map_some', Option.some.injEq, Prod.mk.injEq] at h
    obtain ⟨hrc, hmask⟩ := h
    subst hrc
    subst hmask
    cases cjp with
    | autoDetect =>
      cases cu <;> rfl
    | custom p =>
      have hp : jp = p := by
        unfold JavaPath.resolve at hj
        exact (Option.some.injEq _ _).mp hj.symm
      subst hp
      cases cu <;> rfl

/-- Claim C9 witness: the round trip evaluated on a concrete custom-path
`Specific`-user config. -/
theorem c9_config_mask_roundtrip_witness :
    Config.fromResolved
        { javaPath := [106], serverJarPath := [115], javaArguments := .manual [],
          serverArguments := .parsed [97], user := some [117] }
        { javaPath := .custom, user := .specific }
      = some
        { javaPath := .custom [106], serverJarPath := [115], javaArguments := .manual [],
          serverArguments := .parsed [97], user := .specific [117] } :=
  c9_config_mask_roundtrip
    { javaHome := none, pathJava := none, shlex := fun _ => none,
      spawnResult := .error () }
    { javaPath := .custom [106], serverJarPath := [115], javaArguments := .manual [],
      serverArguments := .parsed [97], user := .specific [117] }
    _ _ rfl

/-! ## Child-process actor (`src/server/src/child.rs`)

`ChildTask`'s handlers become pure functions of the actor state plus the
`Env`; the nested stdio subsystem, the waiter task and the subsystem
handles are outside the state machine — their interaction arrives back
as the `childDead` inbound event. -/

/-- The `State` enum of `ChildTask`: `Running { pid: Option<Pid>, .. }`
(the `std` subsystem handle and `stdin_tx` are runtime handles, not
state) or `Stopped`. -/
inductive ChildProcState where
  | running (pid : Option Nat)
  | stopped
deriving DecidableEq

/-- The mutable fields of `ChildTask`. -/
structure ChildTaskState where
  state : ChildProcState
  sigtermInProgress : Bool
  restartInProgress : Bool
  config : Option Config
deriving DecidableEq

/-- The two signals `handle_s2c_stop` can send. -/
inductive Signal where
  | sigterm
  | sigkill
deriving DecidableEq

/-- An externally visible action of the child actor. -/
inductive ChildEffect where
  | updateState (s : ServerState)
  | kill (pid : Nat) (signal : Signal)
  | stdinForward (bytes : RString)
deriving DecidableEq

/-- Which step of `handle_s2c_start` failed. -/
inductive StartError where
  | noConfig
  | javaPath
  | javaArguments
  | serverArguments
  | spawnFailed
deriving DecidableEq

/-- `ChildTask::handle_s2c_start`: already `Running` is an idempotent
`Ok(())`; otherwise require a config, resolve the Java path and both
argument lists, spawn (all failures return early with an error and no
state change), and on success store `Running { pid }` and emit
`UpdateState(Started)`. -/
def handleS2CStart (env : Env) (st : ChildTaskState) :
    Except StartError Unit × ChildTaskState × List ChildEffect :=
  match st.state with
  | .running _ => (.ok (), st, [])
  | .stopped =>
    match st.config with
    | none => (.error .noConfig, st, [])
    | some config =>
      match config.javaPath.resolve env with
      | none => (.error .javaPath, st, [])
      | some _ =>
        match config.javaArguments.resolve env with
        | none => (.error .javaArguments, st, [])
        | some _ =>
          match config.serverArguments.resolve env with
          | none => (.error .serverArguments, st, [])
          | some _ =>
            match env.spawnResult with
            | .error _ => (.error .spawnFailed, st, [])
            | .ok pid =>
              (.ok (), { st with state := .running pid },
                [.updateState .started])

/-- `ChildTask::handle_s2c_stop`: only `Running` with a known pid sends
a signal — `SIGKILL` when a termination is already in progress,
`SIGTERM` otherwise — and records `sigterm_in_progress = true`. -/
def handleS2CStop (st : ChildTaskState) : ChildTaskState × List ChildEffect :=
  match st.state with
  | .running (some pid) =>
    ({ st with sigtermInProgress := true },
      [.kill pid (if st.sigtermInProgress then .sigkill else .sigterm)])
  | _ => (st, [])

/-- `ChildTask::handle_s2c_restart`: stop, flag the restart, reply
`Ok(())`. -/
def handleS2CRestart (st : ChildTaskState) :
    Except StartError Unit × ChildTaskState × List ChildEffect :=
  ((.ok ()), { (handleS2CStop st).1 with restartInProgress := true },
    (handleS2CStop st).2)

/-- Everything the `ChildTask::run` select loop can receive: the
`ServerToChildMessage` variants plus the waiter's child-dead
notification. -/
inductive ChildInbound where
  | stdin (bytes : RString)
  | start
  | stop
  | restart
  | serverState
  | updateConfig (config : Config)
  | childDead
deriving DecidableEq

instance {ε α : Type} [DecidableEq ε] [DecidableEq α] : DecidableEq (Except ε α) :=
  fun a b => by
    cases a <;> cases b
    case error.error x y => exact decidable_of_iff (x = y) (by simp)
    case error.ok x y => exact .isFalse (fun h => Except.noConfusion h)
    case ok.error x y => exact .isFalse (fun h => Except.noConfusion h)
    case ok.ok x y => exact decidable_of_iff (x = y) (by simp)

/-- A value sent back over a `ServerToChildMessage` oneshot. -/
inductive ChildReply where
  | result (r : Except StartError Unit)
  | state (s : ServerState)
deriving DecidableEq

/-- One step of the child actor: `handle_s2c` dispatch
(`child.rs:306-340`) plus the dead-child arm of the `run` select loop
(`child.rs:79-94`): clear `sigterm_in_progress`, drop to `Stopped`, and
if a restart was pending run `handle_s2c_start` (its error only logged)
and clear the restart flag. -/
def childStep (env : Env) (st : ChildTaskState) :
    ChildInbound → ChildTaskState × List ChildEffect × Option ChildReply
  | .stdin bytes =>
    match st.state with
    | .running _ => (st, [.stdinForward bytes], none)
    | .stopped => (st, [], none)
  | .start =>
    ((handleS2CStart env st).2.1, (handleS2CStart env st).2.2,
      some (.result (handleS2CStart env st).1))
  | .stop =>
    ((handleS2CStop st).1, (handleS2CStop st).2, some (.result (.ok ())))
  | .restart =>
    ((handleS2CRestart st).2.1, (handleS2CRestart st).2.2,
      some (.result (handleS2CRestart st).1))
  | .serverState =>
    (st, [], some (.state (match st.state with
      | .running _ => .started
      | .stopped => .stopped none)))
  | .updateConfig config => ({ st with config := some config }, [], none)
  | .childDead =>
    if st.restartInProgress then
      ({ (handleS2CStart env
          { st with sigtermInProgress := false, state := .stopped }).2.1 with
        restartInProgress := false },
        (handleS2CStart env
          { st with sigtermInProgress := false, state := .stopped }).2.2, none)
    else ({ st with sigtermInProgress := false, state := .stopped }, [], none)

theorem handleS2CStart_sigterm (env : Env) (st : ChildTaskState) :
    (handleS2CStart env st).2.1.sigtermInProgress = st.sigtermInProgress := by
  unfold handleS2CStart
  repeat' split
  all_goals rfl

theorem handleS2CStop_sigterm (st : ChildTaskState) :
    (handleS2CStop st).1.sigtermInProgress = true ∨ (handleS2CStop st).1 = st := by
  unfold handleS2CStop
  split
  · exact Or.inl rfl
  · exact Or.inr rfl

/-- Claim C5: `PerformOperation(Start)` replies `Ok(())` without
touching state or emitting events when already `Running`; from
`Stopped` it succeeds exactly when a config is present, the Java path
and both argument lists resolve, and the spawn succeeds — every failure
replies an error with the state still `Stopped` and no
`ServerStateUpdated` emitted, and success moves to `Running` and emits
exactly `ServerStateUpdated(Started)`. -/
theorem c5_start_semantics (env : Env) (st : ChildTaskState) :
    (∀ pid, st.state = .running pid → handleS2CStart env st = (.ok (), st, [])) ∧
    (st.state = .stopped →
      (((handleS2CStart env st).1 = .ok ()) ↔
        (∃ c, st.config = some c ∧ (c.javaPath.resolve env).isSome = true ∧
          (c.javaArguments.resolve env).isSome = true ∧
          (c.serverArguments.resolve env).isSome = true ∧
          (∃ pid, env.spawnResult = .ok pid))) ∧
      (∀ e, (handleS2CStart env st).1 = .error e →
        (handleS2CStart env st).2.1 = st ∧ (handleS2CStart env st).2.2 = []) ∧
      ((handleS2CStart env st).1 = .ok () →
        (∃ pid, (handleS2CStart env st).2.1 = { st with state := .running pid }) ∧
        (handleS2CStart env st).2.2 = [.updateState .started])) := by
  refine ⟨?_, ?_⟩
  · intro pid hrun
    unfold handleS2CStart
    rw [hrun]
  · intro hstop
    unfold handleS2CStart
    rw [hstop]
    cases hc : st.config with
    | none => simp
    | some c =>
      cases hjp : JavaPath.resolve env c.javaPath with
      | none => simp [hjp]
      | some jp =>
        cases hja : Arguments.resolve env c.javaArguments with
        | none => simp [hjp, hja]
        | some ja =>
          cases hsa : Arguments.resolve env c.serverArguments with
          | none => simp [hjp, hja, hsa]
          | some sa =>
            cases hsp : env.spawnResult with
            | error e0 => simp [hjp, hja, hsa, hsp]
            | ok pid => simp [hjp, hja, hsa, hsp]

/-- Claim C5 witness: `Start` on an already-running child is an
idempotent no-op; `Start` from `Stopped` with no configuration leaves
the state unchanged and emits nothing. -/
theorem c5_start_semantics_witness :
    (handleS2CStart
        { javaHome := none, pathJava := none, shlex := fun _ => none,
          spawnResult := .ok (some 42) }
        { state := .running (some 7), sigtermInProgress := false,
          restartInProgress := false, config := none }
      = (.ok (),
          { state := .running (some 7), sigtermInProgress := false,
            restartInProgress := false, config := none }, [])) ∧
    ((handleS2CStart
        { javaHome := none, pathJava := none, shlex := fun _ => none,
          spawnResult := .ok (some 42) }
        { state := .stopped, sigtermInProgress := false,
          restartInProgress := false, config := none }).2.1
      = { state := .stopped, sigtermInProgress := false,
          restartInProgress := false, config := none } ∧
      (handleS2CStart
        { javaHome := none, pathJava := none, shlex := fun _ => none,
          spawnResult := .ok (some 42) }
        { state := .stopped, sigtermInProgress := false,
          restartInProgress := false, config := none }).2.2 = []) :=
  ⟨(c5_start_semantics _ _).1 (some 7) rfl,
    ((c5_start_semantics _ _).2 rfl).2.1 .noConfig (by decide)⟩

/-- Claim C6: `PerformOperation(Stop)` always replies `Ok(())`
immediately (the reply does not wait for the child); when `Running`
with a known pid it sends exactly one signal — `SIGKILL` when
`sigterm_in_progress` is already set, `SIGTERM` otherwise — and sets
the flag; when `Stopped` it sends no signal and changes nothing; and the
only inbound event that ever clears `sigterm_in_progress` is the
waiter's child-dead notification. -/
theorem c6_stop_semantics (env : Env) (st : ChildTaskState) :
    ((childStep env st .stop).2.2 = some (.result (.ok ()))) ∧
    (∀ pid, st.state = .running (some pid) →
      (childStep env st .stop).2.1
          = [.kill pid (if st.sigtermInProgress then .sigkill else .sigterm)] ∧
        (childStep env st .stop).1.sigtermInProgress = true) ∧
    (st.state = .stopped → childStep env st .stop = (st, [], some (.result (.ok ())))) ∧
    (∀ e, (childStep env st e).1.sigtermInProgress = false →
      st.sigtermInProgress = false ∨ e = .childDead) := by
  refine ⟨rfl, ?_, ?_, ?_⟩
  · intro pid hrun
    simp [childStep, handleS2CStop, hrun]
  · intro hstop
    simp [childStep, handleS2CStop, hstop]
  · intro e h
    cases e with
    | childDead => exact Or.inr rfl
    | stdin bytes =>
      refine Or.inl ?_
      simp only [childStep] at h
      cases hs : st.state <;> rw [hs] at h <;> exact h
    | start =>
      refine Or.inl ?_
      simp only [childStep] at h
      rwa [handleS2CStart_sigterm] at h
    | stop =>
      refine Or.inl ?_
      simp only [childStep] at h
      rcases handleS2CStop_sigterm st with htrue | hsame
      · rw [htrue] at h
        exact absurd h (by simp)
      · rwa [hsame] at h
    | restart =>
      refine Or.inl ?_
      simp only [childStep, handleS2CRestart] at h
      rcases handleS2CStop_sigterm st with htrue | hsame
      · rw [htrue] at h
        exact absurd h (by simp)
      · rwa [hsame] at h
    | serverState =>
      exact Or.inl h
    | updateConfig c =>
      exact Or.inl h

/-- Claim C6 witness: `Stop` on a running child with pid 5 and no
termination in progress sends exactly `SIGTERM` and sets the flag;
`Stop` while `Stopped` sends nothing and still replies `Ok(())`. -/
theorem c6_stop_semantics_witness :
    ((childStep
        { javaHome := none, pathJava := none, shlex := fun _ => none,
          spawnResult := .error () }
        { state := .running (some 5), sigtermInProgress := false,
          restartInProgress := false, config := none } .stop).2.1
        = [.kill 5 (if false then .sigkill else .sigterm)] ∧
      (childStep
        { javaHome := none, pathJava := none, shlex := fun _ => none,
          spawnResult := .error () }
        { state := .running (some 5), sigtermInProgress := false,
          restartInProgress := false, config := none } .stop).1.sigtermInProgress
        = true) ∧
    (childStep
        { javaHome := none, pathJava := none, shlex := fun _ => none,
          spawnResult := .error () }
        { state := .stopped, sigtermInProgress := false,
          restartInProgress := false, config := none } .stop
      = ({ state := .stopped, sigtermInProgress := false,
            restartInProgress := false, config := none }, [],
          some (.result (.ok ())))) :=
  ⟨(c6_stop_semantics _ _).2.1 5 rfl, (c6_stop_semantics _ _).2.2.1 rfl⟩

/-- Claim C8: `UpdateConfig(config)` always replies `()` — the reply and
the rest of the handler are identical whether persisting to disk
succeeded or failed (the failure is only logged) — the supervisor's
in-memory config becomes the new value so a later `GetConfig` returns
it, and the child subsystem is notified and stores the new config,
which is what its next `Start` reads. -/
theorem c8_update_config_semantics (dumpResult : Except Unit Unit)
    (st : ServerTaskState) (c : Config) (env : Env) (cst : ChildTaskState) :
    (handleN2S dumpResult st (.updateConfig c)
      = ({ config := some c }, [.toChild (.updateConfig c), .reply .unit])) ∧
    (∀ dumpResult2, handleN2S dumpResult2 { config := some c } .getConfig
      = ({ config := some c }, [.reply (.currentConfig (some c))])) ∧
    (childStep env cst (.updateConfig c)
      = ({ cst with config := some c }, [], none)) ∧
    ((childStep env cst (.updateConfig c)).1.config = some c) :=
  ⟨rfl, fun _ => rfl, rfl, rfl⟩

/-- `NotALocalClient` from `src/client/src/managed.rs`. -/
inductive NotALocalClient where
  | notALocalClient
deriving DecidableEq

/-- The `Shutdown` arm of `managed::client_writer_task_handle_message`
(`src/client/src/managed.rs:210-223`): when the underlying connection
is NOT Unix (`!writer.is_unix()`) the wire `Shutdown` message is sent
and the caller gets `Ok(())`; for a Unix connection nothing is sent and
the caller gets `Err(NotALocalClient)`. -/
def clientWriterHandleShutdown (isUnix : Bool) :
    List ClientToServerMessage × Except NotALocalClient Unit :=
  if !isUnix then ([ClientToServerMessage.shutdown], .ok ())
  else ([], .error .notALocalClient)

/-- Claim C10: the managed client's `shutdown()` sends the `Shutdown`
protocol message only over non-Unix (TCP) connections and returns
`NotALocalClient` without sending anything over a Unix-domain
connection — the opposite of the wire protocol's "local clients only"
restriction. -/
theorem c10_managed_shutdown_inverted :
    clientWriterHandleShutdown false = ([.shutdown], .ok ()) ∧
    clientWriterHandleShutdown true = ([], .error .notALocalClient) :=
  ⟨rfl, rfl⟩

end Raphy
